import Mathlib

/-!
# fitness-scheduler: the reminder dispatch scheduler

A shallow embedding of `scheduler/init.go` and of the parts of
`sessions/session.go` it drives (`GetSession`, `GetReminders`,
`Reminder.Remind`) together with the persistence path `Session.Save` /
`Reminder.Save`.

Conventions of the embedding

* The outside world (database, HTTP endpoint, wall clock, scheduler latency) is
  an `Env` of answer functions.  Every answer may depend on the whole history of
  external calls made so far, so two calls of the same operation are free to
  answer differently.
* A `World` is the wall clock together with that history (`trace`).  Every
  external call appends one `Entry`, stamped with the clock value at which the
  call was issued and tagged with whether it succeeded.
* Go `int64` values are integers; `time.Duration` arithmetic that Go performs in
  64 bits is wrapped explicitly with `wrap64`, and `Time.Sub` saturates as its
  documentation says.  Instants (`time.Time`) are integer nanosecond counts on
  the wall clock: a `time.Time` covers hundreds of billions of years, so `Add`
  of a duration to a stored timestamp is exact, and the timestamps read from the
  store carry no monotonic reading, so `After` and `Sub` compare wall clocks.
* A Go `error` is its message.
* One goroutine is followed at a time: what the other goroutines do to the
  store shows in the answers of the `Env`, which a theorem quantifies over.
-/

namespace FitnessScheduler

/-! ## The `time` package as used by the scheduler -/

namespace GoTime

/-- The largest `time.Duration`, `1<<63 - 1` nanoseconds. -/
def maxDuration : Int := 9223372036854775807

/-- The smallest `time.Duration`, `-1 << 63` nanoseconds. -/
def minDuration : Int := -9223372036854775808

/-- The constant `time.Minute`, in nanoseconds. -/
def Minute : Int := 60000000000

/-- Two's complement reduction of an integer to the `int64` range. -/
def wrap64 (x : Int) : Int := (x + 9223372036854775808) % 18446744073709551616 - 9223372036854775808

/-- Multiplication of two `time.Duration` values: Go multiplies in `int64`. -/
def mulDuration (a b : Int) : Int := wrap64 (a * b)

/-- The method `t.After(u)`: `t` is strictly later than `u`. -/
def After (t u : Int) : Bool := decide (u < t)

/-- The method `t.Add(d)`. -/
def Add (t d : Int) : Int := t + d

/-- The method `t.Sub(u)`: the duration `t - u`, replaced by the largest or
smallest duration when the difference does not fit a `time.Duration`. -/
def Sub (t u : Int) : Int :=
  if maxDuration < t - u then maxDuration
  else if t - u < minDuration then minDuration
  else t - u

end GoTime

/-! ## Data model (`sessions/session.go`) -/

/-- The type `nullTime` (an embedded `sql.NullTime`). -/
structure NullTime where
  Time : Int
  Valid : Bool
deriving DecidableEq, Repr

/-- The constant `Pending` of type `ReminderStatus`. -/
def Pending : String := "pending"

/-- The constant `Complete` of type `ReminderStatus`. -/
def Complete : String := "complete"

/-- The struct `Reminder`; `MinutesPrior` is a `*int64`, `none` being `nil`. -/
structure Reminder where
  ID : Int
  SessionID : Int
  Time : NullTime
  MinutesPrior : Option Int
  Status : String
deriving DecidableEq, Repr

/-- The struct `Routine`; `Created` is a `*time.Time`, `none` being `nil`. -/
structure Routine where
  ID : Int
  Name : String
  Category : String
  Description : String
  URL : String
  Duration : Int
  Votes : Int
  UserID : Int
  Public : Bool
  Views : Int
  TimesCompleted : Int
  Created : Option Int
  Modified : NullTime
deriving DecidableEq, Repr

/-- The zero value `Routine{}`. -/
def Routine.zero : Routine :=
  { ID := 0, Name := "", Category := "", Description := "", URL := "", Duration := 0,
    Votes := 0, UserID := 0, Public := false, Views := 0, TimesCompleted := 0,
    Created := none, Modified := { Time := 0, Valid := false } }

/-- The struct `Frequency`. -/
structure Frequency where
  ID : Int
  StartDate : NullTime
  EndDate : NullTime
  Type_ : String
  Days : List Int
deriving DecidableEq, Repr

/-- The struct `Session`; `Routine` is a `*Routine`, `none` being `nil`. -/
structure Session where
  ID : Int
  UserID : Int
  Title : String
  Routine : Option Routine
  Timestamp : Int
  Duration : Int
  Frequency : Frequency
  Reminders : List Reminder
  Notes : String
deriving DecidableEq, Repr

/-- The columns `GetSession` scans from the `sessions` table. -/
structure SessionRow where
  UserID : Int
  Title : String
  RoutineID : Int
  Timestamp : Int
  Duration : Int
  FrequencyID : Int
  Notes : String
deriving DecidableEq, Repr

/-- The columns `GetFrequency` scans from the `frequencies` table. -/
structure FrequencyRow where
  StartDate : NullTime
  EndDate : NullTime
  Type_ : String
deriving DecidableEq, Repr

/-! ## External calls -/

/-- The `select` statements of the package. -/
inductive Query where
  | session (id : Int)
  | routine (id : Int)
  | frequency (id : Int)
  | frequencyDays (id : Int)
  | reminders
  | remindersBySession (sessionID : Int)
deriving DecidableEq, Repr

/-- The `insert` and `update` statements of the package, with their arguments. -/
inductive Stmt where
  | insertSession (userID : Int) (title : String) (routineID : Int) (timestamp : Int)
      (duration : Int) (frequencyID : Int) (notes : String)
  | insertRoutine (r : Routine) (created : Int)
  | insertFrequency (startDate endDate : NullTime) (type : String)
  | insertFrequencyDay (frequencyID day : Int)
  | insertReminder (sessionID : Int) (time : NullTime) (minutesPrior : Int) (status : String)
  | updateReminderStatus (status : String) (id : Int)
deriving DecidableEq, Repr

/-- One external call, with its outcome. -/
inductive Event where
  | query (q : Query) (ok : Bool)
  | scan (ok : Bool)
  | post (url body : String) (ok : Bool)
  | exec (s : Stmt) (ok : Bool)
  | sleep (d : Int)
  | log (msg : String)
deriving DecidableEq, Repr

/-- A call of the history, stamped with the clock value at which it was issued. -/
structure Entry where
  time : Int
  ev : Event
deriving DecidableEq, Repr

/-- The wall clock and the history of external calls. -/
structure World where
  clock : Int
  trace : List Entry
deriving DecidableEq, Repr

/-- The answers of the outside world.  `elapsed` is the time a call takes (for a
sleep: the time it oversleeps); `exec` answers `db.Exec` with the pair that
`result.LastInsertId()` returns. -/
structure Env where
  elapsed : List Entry → Nat
  querySession : List Entry → Int → Except String SessionRow
  queryRoutine : List Entry → Int → Except String Routine
  queryFrequency : List Entry → Int → Except String FrequencyRow
  queryFrequencyDays : List Entry → Int → Except String (List (Except String Int))
  queryReminders : List Entry → Except String (List (Except String Reminder))
  queryRemindersBySession : List Entry → Int → Except String (List (Except String Reminder))
  encode : Session → Except String String
  post : List Entry → String → String → Except String Unit
  exec : List Entry → Stmt → Except String (Int × Option String)

/-- Record an external call: it is stamped with the current clock, which then
advances by the time the call takes. -/
def World.emit (env : Env) (w : World) (e : Event) : World :=
  { clock := w.clock + env.elapsed w.trace, trace := w.trace ++ [{ time := w.clock, ev := e }] }

/-- The call `time.Sleep(d)`: pauses for at least `d`; a negative or zero `d`
returns immediately. -/
def GoTime.Sleep (env : Env) (d : Int) (w : World) : World :=
  { clock := w.clock + max d 0 + env.elapsed w.trace,
    trace := w.trace ++ [{ time := w.clock, ev := Event.sleep d }] }

/-! ## Reading (`sessions/session.go`) -/

/-- The loop `for rows.Next() { err := rows.Scan(..); if err != nil { return nil, .. };
xs = append(xs, x) }` of `GetFrequency`, `GetReminders` and `GetRemindersBySession`;
`msg` is the message the function puts before the scan error. -/
def scanRows {α : Type} (env : Env) (msg : String) :
    List (Except String α) → List α → World → Except String (List α) × World
  | [], acc, w => (Except.ok acc, w)
  | Except.error e :: _, _, w => (Except.error (msg ++ e), w.emit env (Event.scan false))
  | Except.ok a :: rest, acc, w => scanRows env msg rest (acc ++ [a]) (w.emit env (Event.scan true))

/-- The function `GetRoutine`. -/
def GetRoutine (env : Env) (id : Int) (w : World) : Except String Routine × World :=
  match env.queryRoutine w.trace id with
  | Except.error e =>
    (Except.error ("failed to select routine from database: " ++ e),
      w.emit env (Event.query (Query.routine id) false))
  | Except.ok row => (Except.ok { row with ID := id }, w.emit env (Event.query (Query.routine id) true))

/-- The function `GetFrequency`. -/
def GetFrequency (env : Env) (id : Int) (w : World) : Except String Frequency × World :=
  match env.queryFrequency w.trace id with
  | Except.error e =>
    (Except.error ("failed to select frequency from database: " ++ e),
      w.emit env (Event.query (Query.frequency id) false))
  | Except.ok row =>
    let w1 := w.emit env (Event.query (Query.frequency id) true)
    match env.queryFrequencyDays w1.trace id with
    | Except.error e =>
      (Except.error ("failed to select frequency days from database: " ++ e),
        w1.emit env (Event.query (Query.frequencyDays id) false))
    | Except.ok rows =>
      match scanRows env "failed to scan frequency day: " rows []
          (w1.emit env (Event.query (Query.frequencyDays id) true)) with
      | (Except.error e, w2) => (Except.error e, w2)
      | (Except.ok days, w2) =>
        (Except.ok { ID := id, StartDate := row.StartDate, EndDate := row.EndDate,
                     Type_ := row.Type_, Days := days }, w2)

/-- The function `GetReminders`. -/
def GetReminders (env : Env) (w : World) : Except String (List Reminder) × World :=
  match env.queryReminders w.trace with
  | Except.error e =>
    (Except.error ("failed to select reminders from database: " ++ e),
      w.emit env (Event.query Query.reminders false))
  | Except.ok rows =>
    scanRows env "failed to scan reminder: " rows [] (w.emit env (Event.query Query.reminders true))

/-- The function `GetRemindersBySession`; the scan does not fill `SessionID`. -/
def GetRemindersBySession (env : Env) (sessionID : Int) (w : World) :
    Except String (List Reminder) × World :=
  match env.queryRemindersBySession w.trace sessionID with
  | Except.error e =>
    (Except.error ("failed to select reminders from database: " ++ e),
      w.emit env (Event.query (Query.remindersBySession sessionID) false))
  | Except.ok rows =>
    scanRows env "failed to scan reminder: "
      (rows.map (fun row => row.map (fun r => { r with SessionID := 0 }))) []
      (w.emit env (Event.query (Query.remindersBySession sessionID) true))

/-- The function `GetSession`. -/
def GetSession (env : Env) (id : Int) (w : World) : Except String Session × World :=
  match env.querySession w.trace id with
  | Except.error e =>
    (Except.error ("failed to select session from database: " ++ e),
      w.emit env (Event.query (Query.session id) false))
  | Except.ok row =>
    match GetRoutine env row.RoutineID (w.emit env (Event.query (Query.session id) true)) with
    | (Except.error e, w1) => (Except.error ("failed to get routine: " ++ e), w1)
    | (Except.ok routine, w1) =>
      match GetFrequency env row.FrequencyID w1 with
      | (Except.error e, w2) => (Except.error ("failed to get frequency: " ++ e), w2)
      | (Except.ok frequency, w2) =>
        match GetRemindersBySession env id w2 with
        | (Except.error e, w3) => (Except.error ("failed to get reminders: " ++ e), w3)
        | (Except.ok reminders, w3) =>
          (Except.ok { ID := id, UserID := row.UserID, Title := row.Title, Routine := some routine,
                       Timestamp := row.Timestamp, Duration := row.Duration,
                       Frequency := frequency, Reminders := reminders, Notes := row.Notes }, w3)

/-! ## Firing (`Reminder.Remind`) -/

/-- The method `Reminder.Remind`: the error it returns, the receiver as the
method leaves it, and the world. -/
def Reminder.Remind (env : Env) (url : String) (r : Reminder) (w : World) :
    Except String Unit × Reminder × World :=
  match GetSession env r.SessionID w with
  | (Except.error e, w1) => (Except.error ("failed to get session: " ++ e), r, w1)
  | (Except.ok session, w1) =>
    match env.encode session with
    | Except.error e => (Except.error ("failed to encode session: " ++ e), r, w1)
    | Except.ok buf =>
      match env.post w1.trace (url ++ "/notify") buf with
      | Except.error e =>
        (Except.error ("failed to notify: " ++ e), r,
          w1.emit env (Event.post (url ++ "/notify") buf false))
      | Except.ok _ =>
        let w2 := w1.emit env (Event.post (url ++ "/notify") buf true)
        if r.Time.Valid && r.MinutesPrior.isNone then
          let r1 := { r with Status := Complete }
          match env.exec w2.trace (Stmt.updateReminderStatus r1.Status r1.ID) with
          | Except.error e =>
            (Except.error ("failed to update reminder: " ++ e), r1,
              w2.emit env (Event.exec (Stmt.updateReminderStatus r1.Status r1.ID) false))
          | Except.ok _ =>
            (Except.ok (), r1,
              w2.emit env (Event.exec (Stmt.updateReminderStatus r1.Status r1.ID) true))
        else (Except.ok (), r, w2)

/-! ## The scheduler (`scheduler/init.go`) -/

/-- The statement `err := r.Remind(url, db); if err != nil { log.Println(..); return }`
that ends each of the four branches of the goroutine. -/
def remindAndLog (env : Env) (url : String) (r : Reminder) (w : World) : Reminder × World :=
  match r.Remind env url w with
  | (Except.error e, r1, w1) => (r1, w1.emit env (Event.log ("failed to remind user: " ++ e)))
  | (Except.ok _, r1, w1) => (r1, w1)

/-- The goroutine `go func(r sessions.Reminder) { .. }(reminder)` that `Init`
starts for each reminder: its copy of the reminder when it ends, and the world. -/
def dispatchTask (env : Env) (url : String) (r : Reminder) (w : World) : Reminder × World :=
  if r.Status != Complete then
    let now := w.clock
    if r.Time.Valid then
      if GoTime.After now r.Time.Time then
        remindAndLog env url r w
      else
        remindAndLog env url r (GoTime.Sleep env (GoTime.Sub r.Time.Time now) w)
    else
      match r.MinutesPrior with
      | some m =>
        match GetSession env r.SessionID w with
        | (Except.error e, w1) => (r, w1.emit env (Event.log ("failed to get session: " ++ e)))
        | (Except.ok session, w1) =>
          let timeToRemind := GoTime.Add session.Timestamp (GoTime.mulDuration (-GoTime.Minute) m)
          if GoTime.After now timeToRemind then
            remindAndLog env url r w1
          else
            remindAndLog env url r (GoTime.Sleep env (GoTime.Sub timeToRemind now) w1)
      | none => (r, w)
  else (r, w)

/-- What `Init` leaves behind: the error it returns (`none` for `nil`), the
reminders it started a goroutine for, in order, those goroutines, and the world
at its return. -/
structure InitResult where
  err : Option String
  launched : List Reminder
  tasks : List (World → Reminder × World)
  world : World

/-- The function `Init`.  The goroutines it starts run `dispatchTask env url r`
after (or while) `Init` returns; `Init` does not wait for them. -/
def Init (env : Env) (url : String) (w : World) : InitResult :=
  match GetReminders env w with
  | (Except.error e, w1) =>
    { err := some ("failed to load reminders: " ++ e), launched := [], tasks := [], world := w1 }
  | (Except.ok reminders, w1) =>
    { err := none, launched := reminders, tasks := reminders.map (dispatchTask env url),
      world := w1 }

/-! ## Saving (`sessions/session.go`) -/

/-- How a call that may dereference a nil pointer ends: it returns `nil`, returns
an error, or the runtime stops it with a nil pointer dereference. -/
inductive Outcome where
  | ok
  | error (msg : String)
  | fault
deriving DecidableEq, Repr

/-- The method `Routine.Save`. -/
def Routine.Save (env : Env) (r : Routine) (w : World) : Outcome × Routine × World :=
  let created := match r.Created with
    | some c => c
    | none => w.clock
  let r0 := { r with Created := some created }
  match env.exec w.trace (Stmt.insertRoutine r0 created) with
  | Except.error e =>
    (Outcome.error ("failed to save routine: " ++ e), r0,
      w.emit env (Event.exec (Stmt.insertRoutine r0 created) false))
  | Except.ok (id, lastErr) =>
    match lastErr with
    | some e =>
      (Outcome.error ("failed to get last insert ID: " ++ e), { r0 with ID := id },
        w.emit env (Event.exec (Stmt.insertRoutine r0 created) true))
    | none =>
      (Outcome.ok, { r0 with ID := id }, w.emit env (Event.exec (Stmt.insertRoutine r0 created) true))

/-- The loop `for _, d := range f.Days` of `Frequency.Save`. -/
def saveDays (env : Env) (frequencyID : Int) : List Int → World → Outcome × World
  | [], w => (Outcome.ok, w)
  | d :: ds, w =>
    match env.exec w.trace (Stmt.insertFrequencyDay frequencyID d) with
    | Except.error e =>
      (Outcome.error ("failed to save frequency day: " ++ e),
        w.emit env (Event.exec (Stmt.insertFrequencyDay frequencyID d) false))
    | Except.ok _ =>
      saveDays env frequencyID ds (w.emit env (Event.exec (Stmt.insertFrequencyDay frequencyID d) true))

/-- The method `Frequency.Save`. -/
def Frequency.Save (env : Env) (f : Frequency) (w : World) : Outcome × Frequency × World :=
  match env.exec w.trace (Stmt.insertFrequency f.StartDate f.EndDate f.Type_) with
  | Except.error e =>
    (Outcome.error ("failed to save frequency: " ++ e), f,
      w.emit env (Event.exec (Stmt.insertFrequency f.StartDate f.EndDate f.Type_) false))
  | Except.ok (id, lastErr) =>
    let w1 := w.emit env (Event.exec (Stmt.insertFrequency f.StartDate f.EndDate f.Type_) true)
    let f1 := { f with ID := id }
    match lastErr with
    | some e => (Outcome.error ("failed to get last insert ID: " ++ e), f1, w1)
    | none =>
      match saveDays env f1.ID f1.Days w1 with
      | (o, w2) => (o, f1, w2)

/-- The method `Reminder.Save`.  The arguments of `db.Exec` are evaluated before
the call, and `*r.MinutesPrior` is one of them. -/
def Reminder.Save (env : Env) (r : Reminder) (w : World) : Outcome × Reminder × World :=
  let r0 := if r.Status == "" then { r with Status := Pending } else r
  match r0.MinutesPrior with
  | none => (Outcome.fault, r0, w)
  | some m =>
    match env.exec w.trace (Stmt.insertReminder r0.SessionID r0.Time m r0.Status) with
    | Except.error e =>
      (Outcome.error ("failed to save reminder: " ++ e), r0,
        w.emit env (Event.exec (Stmt.insertReminder r0.SessionID r0.Time m r0.Status) false))
    | Except.ok (id, lastErr) =>
      match lastErr with
      | some e =>
        (Outcome.error ("failed to get last insert ID: " ++ e), { r0 with ID := id },
          w.emit env (Event.exec (Stmt.insertReminder r0.SessionID r0.Time m r0.Status) true))
      | none =>
        (Outcome.ok, { r0 with ID := id },
          w.emit env (Event.exec (Stmt.insertReminder r0.SessionID r0.Time m r0.Status) true))

/-- The loop `for _, r := range s.Reminders { r.SessionID = s.ID; err := r.Save(db); .. }`
of `Session.Save`; `r` is a copy, so the session's own reminders stay as they are. -/
def saveReminders (env : Env) (sessionID : Int) : List Reminder → World → Outcome × World
  | [], w => (Outcome.ok, w)
  | r :: rs, w =>
    match Reminder.Save env { r with SessionID := sessionID } w with
    | (Outcome.error e, _, w1) => (Outcome.error ("failed to save reminder: " ++ e), w1)
    | (Outcome.fault, _, w1) => (Outcome.fault, w1)
    | (Outcome.ok, _, w1) => saveReminders env sessionID rs w1

/-- The part of `Session.Save` from `if s.Frequency.ID == 0` on; `routine` is
`*s.Routine`, which is not nil any more at this point. -/
def saveSessionRest (env : Env) (s : Session) (routine : Routine) (w : World) :
    Outcome × Session × World :=
  let saved : Outcome × Frequency × World :=
    if s.Frequency.ID == 0 then Frequency.Save env s.Frequency w else (Outcome.ok, s.Frequency, w)
  match saved with
  | (Outcome.error e, f1, w1) =>
    (Outcome.error ("failed to save frequency: " ++ e),
      { s with Routine := some routine, Frequency := f1 }, w1)
  | (Outcome.fault, f1, w1) =>
    (Outcome.fault, { s with Routine := some routine, Frequency := f1 }, w1)
  | (Outcome.ok, f1, w1) =>
    let title := if s.Title == "" then routine.Name else s.Title
    let duration := if s.Duration == 0 then routine.Duration else s.Duration
    let s1 : Session :=
      { s with Routine := some routine, Frequency := f1, Title := title, Duration := duration }
    let stmt := Stmt.insertSession s.UserID title routine.ID s.Timestamp duration f1.ID s.Notes
    match env.exec w1.trace stmt with
    | Except.error e =>
      (Outcome.error ("failed to save session: " ++ e), s1, w1.emit env (Event.exec stmt false))
    | Except.ok (id, lastErr) =>
      let w2 := w1.emit env (Event.exec stmt true)
      let s2 : Session := { s1 with ID := id }
      match lastErr with
      | some e => (Outcome.error ("failed to get last insert ID: " ++ e), s2, w2)
      | none =>
        match saveReminders env id s.Reminders w2 with
        | (o, w3) => (o, s2, w3)

/-- The method `Session.Save`. -/
def Session.Save (env : Env) (s : Session) (w : World) : Outcome × Session × World :=
  match s.Routine with
  | none => saveSessionRest env s FitnessScheduler.Routine.zero w
  | some routine =>
    if routine.ID == 0 then
      match FitnessScheduler.Routine.Save env routine w with
      | (Outcome.error e, routine1, w1) =>
        (Outcome.error ("failed to save routine: " ++ e), { s with Routine := some routine1 }, w1)
      | (Outcome.fault, routine1, w1) => (Outcome.fault, { s with Routine := some routine1 }, w1)
      | (Outcome.ok, routine1, w1) => saveSessionRest env s routine1 w1
    else saveSessionRest env s routine w

/-! ## Observations on a history -/

/-- The call is a notification (`http.Post`). -/
def Event.isPost : Event → Bool
  | Event.post _ _ _ => true
  | _ => false

/-- The call is a notification that succeeded. -/
def Event.isOkPost : Event → Bool
  | Event.post _ _ ok => ok
  | _ => false

/-- The call is a notification that failed. -/
def Event.isFailedPost : Event → Bool
  | Event.post _ _ ok => !ok
  | _ => false

/-- The call is a store write (`db.Exec`). -/
def Event.isWrite : Event → Bool
  | Event.exec _ _ => true
  | _ => false

/-- The call is a `time.Sleep`. -/
def Event.isSleep : Event → Bool
  | Event.sleep _ => true
  | _ => false

/-- The call is a store read (`db.Query`, `db.QueryRow(..).Scan` or `rows.Scan`). -/
def Event.isRead : Event → Bool
  | Event.query _ _ => true
  | Event.scan _ => true
  | _ => false

/-- The call is a store read that failed. -/
def Event.isFailedRead : Event → Bool
  | Event.query _ ok => !ok
  | Event.scan ok => !ok
  | _ => false

/-- The call is the successful insert of a session row. -/
def Event.isSessionInsert : Event → Bool
  | Event.exec (Stmt.insertSession _ _ _ _ _ _ _) ok => ok
  | _ => false

/-- The calls made between the world `w` and a later world `w'`. -/
def World.since (w w' : World) : List Entry := w'.trace.drop w.trace.length

/-- The calls among `es` that satisfy `p`. -/
def calls (p : Event → Bool) (es : List Entry) : List Entry := es.filter (fun x => p x.ev)

/-- Some call among `es` satisfies `p`. -/
def occurs (p : Event → Bool) (es : List Entry) : Bool := es.any (fun x => p x.ev)

/-- The call returned an error. -/
def Outcome.isError : Outcome → Bool
  | Outcome.error _ => true
  | _ => false

/-- The statements after whose `db.Exec` the code calls `result.LastInsertId()`:
the four inserts of the `Save` methods, not the insert of a frequency day and not
the status update. -/
def Stmt.asksInsertId : Stmt → Bool
  | Stmt.insertFrequencyDay _ _ => false
  | Stmt.updateReminderStatus _ _ => false
  | _ => true

/-- The store refused the statement: `db.Exec` returned an error, or, where the
code asks for it, `result.LastInsertId()` did. -/
def refusedAnswer (stmt : Stmt) : Except String (Int × Option String) → Bool
  | Except.error _ => true
  | Except.ok (_, some _) => stmt.asksInsertId
  | Except.ok (_, none) => false

/-- Some store write among the calls `es`, made after the history `before`, was
refused by the outside world `env`. -/
def refused (env : Env) : List Entry → List Entry → Bool
  | _, [] => false
  | before, x :: xs =>
    (match x.ev with
      | Event.exec stmt _ => refusedAnswer stmt (env.exec before stmt)
      | _ => false) || refused env (before ++ [x]) xs

/-! ## Concrete worlds used to exercise the definitions -/

/-- A session row: session starting at instant 0. -/
def sampleRow : SessionRow :=
  { UserID := 7, Title := "run", RoutineID := 3, Timestamp := 0, Duration := 30,
    FrequencyID := 4, Notes := "" }

/-- The session that `GetSession` builds from `sampleRow` for the id 10. -/
def sampleSession : Session :=
  { ID := 10, UserID := 7, Title := "run", Routine := some { Routine.zero with ID := 3 },
    Timestamp := 0, Duration := 30,
    Frequency := { ID := 4, StartDate := { Time := 0, Valid := false },
                   EndDate := { Time := 0, Valid := false }, Type_ := "single", Days := [] },
    Reminders := [], Notes := "" }

/-- An outside world in which every call succeeds at once and takes no time. -/
def envOk : Env :=
  { elapsed := fun _ => 0,
    querySession := fun _ _ => Except.ok sampleRow,
    queryRoutine := fun _ _ => Except.ok Routine.zero,
    queryFrequency := fun _ _ =>
      Except.ok { StartDate := { Time := 0, Valid := false }, EndDate := { Time := 0, Valid := false },
                  Type_ := "single" },
    queryFrequencyDays := fun _ _ => Except.ok [],
    queryReminders := fun _ => Except.ok [],
    queryRemindersBySession := fun _ _ => Except.ok [],
    encode := fun _ => Except.ok "session",
    post := fun _ _ _ => Except.ok (),
    exec := fun _ _ => Except.ok (1, none) }

/-- As `envOk`, but the notification endpoint cannot be reached. -/
def envPostFails : Env := { envOk with post := fun _ _ _ => Except.error "connection refused" }

/-- As `envOk`, but the `sessions` table cannot be read. -/
def envLookupFails : Env := { envOk with querySession := fun _ _ => Except.error "bad connection" }

/-- As `envOk`, but every `db.Exec` fails. -/
def envExecFails : Env := { envOk with exec := fun _ _ => Except.error "bad connection" }

/-- As `envOk`, but the insert of a session row fails. -/
def envSessionInsertFails : Env :=
  { envOk with
    exec := fun _ stmt =>
      match stmt with
      | Stmt.insertSession _ _ _ _ _ _ _ => Except.error "duplicate entry"
      | _ => Except.ok (1, none) }

/-- As `envOk`, but the `reminders` table cannot be read. -/
def envLoadFails : Env := { envOk with queryReminders := fun _ => Except.error "bad connection" }

/-- A new session whose only reminder has a time and no offset. -/
def faultySession : Session :=
  { ID := 0, UserID := 7, Title := "run", Routine := none, Timestamp := 5000, Duration := 30,
    Frequency := { ID := 0, StartDate := { Time := 0, Valid := false },
                   EndDate := { Time := 0, Valid := false }, Type_ := "single", Days := [] },
    Reminders := [{ ID := 0, SessionID := 0, Time := { Time := 4000, Valid := true },
                    MinutesPrior := none, Status := "" }],
    Notes := "" }

/-- The world at instant 1000 with an empty history. -/
def world0 : World := { clock := 1000, trace := [] }

/-- A pending one-time reminder due at instant `t`. -/
def absoluteReminder (t : Int) : Reminder :=
  { ID := 1, SessionID := 10, Time := { Time := t, Valid := true }, MinutesPrior := none,
    Status := Pending }

/-- A pending reminder due `m` minutes before its session starts. -/
def relativeReminder (m : Int) : Reminder :=
  { ID := 2, SessionID := 10, Time := { Time := 0, Valid := false }, MinutesPrior := some m,
    Status := Pending }

/-- A pending reminder with both a time and an offset. -/
def bothReminder (t m : Int) : Reminder :=
  { ID := 3, SessionID := 10, Time := { Time := t, Valid := true }, MinutesPrior := some m,
    Status := Pending }

/-! ## Runs of store reads -/

/-- Between `w` and `w'` only store reads were made, none issued before the clock
of `w`, and one of them failed exactly when `ok` is false. -/
def ReadRun (ok : Bool) (w w' : World) : Prop :=
  ∃ es : List Entry, w'.trace = w.trace ++ es ∧ w.clock ≤ w'.clock ∧
    (∀ x ∈ es, x.ev.isRead = true ∧ w.clock ≤ x.time) ∧ occurs Event.isFailedRead es = !ok

/-- Between `w` and `w'` a `Save` method ran with the outcome `o`: it only added
calls to the history, and it returned an error exactly when the store refused one
of its writes. -/
def SaveRun (env : Env) (o : Outcome) (w w' : World) : Prop :=
  ∃ es : List Entry, w'.trace = w.trace ++ es ∧ refused env w.trace es = o.isError

/-- What a run from `w` to `w'` that fires the reminder `r` at most once looks
like: `sleeps` are its sleeps, `ok` tells whether `Remind` returned `nil`, and
`r'` is the reminder as the run leaves it. -/
structure FiringFacts (sleeps : List Entry) (r : Reminder) (w : World) (ok : Bool)
    (r' : Reminder) (w' : World) : Prop where
  trace : w'.trace = w.trace ++ w.since w'
  clock : w.clock ≤ w'.clock
  times : ∀ x ∈ w.since w', w.clock ≤ x.time
  sleep : calls Event.isSleep (w.since w') = sleeps
  posts : (calls Event.isPost (w.since w')).length ≤ 1
  failedRead : occurs Event.isFailedRead (w.since w') = true →
    calls Event.isPost (w.since w') = [] ∧ calls Event.isWrite (w.since w') = [] ∧ r' = r ∧
      ok = false
  failedPost : occurs Event.isFailedPost (w.since w') = true →
    calls Event.isWrite (w.since w') = [] ∧ (calls Event.isPost (w.since w')).length = 1 ∧
      r' = r ∧ ok = false
  okPost : occurs Event.isOkPost (w.since w') = true → r.Time.Valid = true →
    r.MinutesPrior = none →
    ∃ t b, calls Event.isWrite (w.since w') =
        [{ time := t, ev := Event.exec (Stmt.updateReminderStatus Complete r.ID) b }] ∧
      r' = { r with Status := Complete } ∧ ok = b
  writes : ∀ x ∈ calls Event.isWrite (w.since w'),
    (∃ b, x.ev = Event.exec (Stmt.updateReminderStatus Complete r.ID) b) ∧
      r.Time.Valid = true ∧ r.MinutesPrior = none ∧ occurs Event.isOkPost (w.since w') = true
  noWrite : calls Event.isWrite (w.since w') = [] → r' = r

theorem ReadRun.refl (w : World) : ReadRun true w w :=
  ⟨[], by simp, le_refl _, by simp, by simp [occurs]⟩

theorem ReadRun.query (env : Env) (w : World) (q : Query) (b : Bool) :
    ReadRun b w (w.emit env (Event.query q b)) :=
  ⟨[{ time := w.clock, ev := Event.query q b }], rfl, by simp [World.emit],
    by simp [Event.isRead], by simp [occurs, Event.isFailedRead]⟩

theorem ReadRun.scan (env : Env) (w : World) (b : Bool) :
    ReadRun b w (w.emit env (Event.scan b)) :=
  ⟨[{ time := w.clock, ev := Event.scan b }], rfl, by simp [World.emit],
    by simp [Event.isRead], by simp [occurs, Event.isFailedRead]⟩

theorem ReadRun.trans {b : Bool} {w w1 w2 : World} (h1 : ReadRun true w w1)
    (h2 : ReadRun b w1 w2) : ReadRun b w w2 := by
  obtain ⟨es1, ht1, hc1, ha1, hf1⟩ := h1
  obtain ⟨es2, ht2, hc2, ha2, hf2⟩ := h2
  refine ⟨es1 ++ es2, by rw [ht2, ht1, List.append_assoc], le_trans hc1 hc2, ?_, ?_⟩
  · intro x hx
    rcases List.mem_append.mp hx with h | h
    · exact ha1 x h
    · exact ⟨(ha2 x h).1, le_trans hc1 (ha2 x h).2⟩
  · simp only [occurs, List.any_append] at hf1 hf2 ⊢
    rw [hf1, hf2]; simp

theorem scanRows_run {α : Type} (env : Env) (msg : String) (rows : List (Except String α)) :
    ∀ (acc : List α) (w : World),
      ReadRun (scanRows env msg rows acc w).1.isOk w (scanRows env msg rows acc w).2 := by
  induction rows with
  | nil => intro acc w; simpa [scanRows, Except.isOk, Except.toBool] using ReadRun.refl w
  | cons row rest ih =>
    intro acc w
    cases row with
    | error e => simpa [scanRows, Except.isOk, Except.toBool] using ReadRun.scan env w false
    | ok a =>
      simp only [scanRows]
      exact ReadRun.trans (ReadRun.scan env w true) (ih _ _)

theorem GetRoutine_run (env : Env) (id : Int) (w : World) :
    ReadRun (GetRoutine env id w).1.isOk w (GetRoutine env id w).2 := by
  unfold GetRoutine
  cases env.queryRoutine w.trace id with
  | error e => simpa [Except.isOk, Except.toBool] using ReadRun.query env w (Query.routine id) false
  | ok row => simpa [Except.isOk, Except.toBool] using ReadRun.query env w (Query.routine id) true

theorem GetReminders_run (env : Env) (w : World) :
    ReadRun (GetReminders env w).1.isOk w (GetReminders env w).2 := by
  unfold GetReminders
  cases env.queryReminders w.trace with
  | error e => simpa [Except.isOk, Except.toBool] using ReadRun.query env w Query.reminders false
  | ok rows => exact ReadRun.trans (ReadRun.query env w Query.reminders true) (scanRows_run _ _ _ _ _)

theorem GetRemindersBySession_run (env : Env) (id : Int) (w : World) :
    ReadRun (GetRemindersBySession env id w).1.isOk w (GetRemindersBySession env id w).2 := by
  unfold GetRemindersBySession
  cases env.queryRemindersBySession w.trace id with
  | error e =>
    simpa [Except.isOk, Except.toBool] using ReadRun.query env w (Query.remindersBySession id) false
  | ok rows =>
    exact ReadRun.trans (ReadRun.query env w (Query.remindersBySession id) true)
      (scanRows_run _ _ _ _ _)

theorem GetFrequency_run (env : Env) (id : Int) (w : World) :
    ReadRun (GetFrequency env id w).1.isOk w (GetFrequency env id w).2 := by
  unfold GetFrequency
  cases env.queryFrequency w.trace id with
  | error e => simpa [Except.isOk, Except.toBool] using ReadRun.query env w (Query.frequency id) false
  | ok row =>
    have h1 := ReadRun.query env w (Query.frequency id) true
    simp only []
    cases env.queryFrequencyDays (w.emit env (Event.query (Query.frequency id) true)).trace id with
    | error e =>
      simpa [Except.isOk, Except.toBool] using
        ReadRun.trans h1 (ReadRun.query env _ (Query.frequencyDays id) false)
    | ok rows =>
      have h2 := ReadRun.trans h1 (ReadRun.query env _ (Query.frequencyDays id) true)
      have h3 := scanRows_run env "failed to scan frequency day: " rows []
        ((w.emit env (Event.query (Query.frequency id) true)).emit env
          (Event.query (Query.frequencyDays id) true))
      simp only []
      rcases hS : scanRows env "failed to scan frequency day: " rows []
        ((w.emit env (Event.query (Query.frequency id) true)).emit env
          (Event.query (Query.frequencyDays id) true)) with ⟨res, w2⟩
      rw [hS] at h3
      cases res with
      | error e => simpa [Except.isOk, Except.toBool] using ReadRun.trans h2 h3
      | ok days => simpa [Except.isOk, Except.toBool] using ReadRun.trans h2 h3

theorem GetSession_run (env : Env) (id : Int) (w : World) :
    ReadRun (GetSession env id w).1.isOk w (GetSession env id w).2 := by
  unfold GetSession
  cases env.querySession w.trace id with
  | error e => simpa [Except.isOk, Except.toBool] using ReadRun.query env w (Query.session id) false
  | ok row =>
    have h0 := ReadRun.query env w (Query.session id) true
    have h1 := GetRoutine_run env row.RoutineID (w.emit env (Event.query (Query.session id) true))
    simp only []
    rcases hR : GetRoutine env row.RoutineID (w.emit env (Event.query (Query.session id) true))
      with ⟨res1, w1⟩
    rw [hR] at h1
    cases res1 with
    | error e => simpa [Except.isOk, Except.toBool] using ReadRun.trans h0 h1
    | ok routine =>
      have h01 := ReadRun.trans h0 h1
      have h2 := GetFrequency_run env row.FrequencyID w1
      simp only []
      rcases hF : GetFrequency env row.FrequencyID w1 with ⟨res2, w2⟩
      rw [hF] at h2
      cases res2 with
      | error e => simpa [Except.isOk, Except.toBool] using ReadRun.trans h01 h2
      | ok frequency =>
        have h02 := ReadRun.trans h01 h2
        have h3 := GetRemindersBySession_run env id w2
        simp only []
        rcases hB : GetRemindersBySession env id w2 with ⟨res3, w3⟩
        rw [hB] at h3
        cases res3 with
        | error e => simpa [Except.isOk, Except.toBool] using ReadRun.trans h02 h3
        | ok reminders => simpa [Except.isOk, Except.toBool] using ReadRun.trans h02 h3

/-! ## One firing -/

theorem since_of_trace {w w' : World} {es : List Entry} (h : w'.trace = w.trace ++ es) :
    w.since w' = es := by
  simp [World.since, h]

theorem calls_of_reads {p : Event → Bool} (hp : ∀ e : Event, e.isRead = true → p e = false)
    {t0 : Int} {es : List Entry} (h : ∀ x ∈ es, x.ev.isRead = true ∧ t0 ≤ x.time) :
    calls p es = [] := by
  simp only [calls, List.filter_eq_nil_iff]
  intro x hx
  simp [hp x.ev (h x hx).1]

theorem occurs_of_reads {p : Event → Bool} (hp : ∀ e : Event, e.isRead = true → p e = false)
    {t0 : Int} {es : List Entry} (h : ∀ x ∈ es, x.ev.isRead = true ∧ t0 ≤ x.time) :
    occurs p es = false := by
  simp only [occurs, List.any_eq_false]
  intro x hx
  simp [hp x.ev (h x hx).1]

theorem calls_append (p : Event → Bool) (a b : List Entry) :
    calls p (a ++ b) = calls p a ++ calls p b := by simp [calls]

theorem calls_single (p : Event → Bool) (x : Entry) :
    calls p [x] = if p x.ev = true then [x] else [] := by
  simp only [calls, List.filter_cons, List.filter_nil]

theorem calls_cons (p : Event → Bool) (x : Entry) (l : List Entry) :
    calls p (x :: l) = if p x.ev = true then x :: calls p l else calls p l := by
  simp only [calls, List.filter_cons]

theorem calls_nil (p : Event → Bool) : calls p [] = [] := rfl

theorem occurs_append (p : Event → Bool) (a b : List Entry) :
    occurs p (a ++ b) = (occurs p a || occurs p b) := by simp [occurs]

theorem occurs_cons (p : Event → Bool) (x : Entry) (l : List Entry) :
    occurs p (x :: l) = (p x.ev || occurs p l) := by simp [occurs]

theorem occurs_nil (p : Event → Bool) : occurs p [] = false := rfl

theorem since_emit (env : Env) {w w1 : World} {es : List Entry} (e : Event)
    (h : w1.trace = w.trace ++ es) :
    w.since (w1.emit env e) = es ++ [{ time := w1.clock, ev := e }] :=
  since_of_trace (by simp [World.emit, h])

theorem emit_clock (env : Env) (w : World) (e : Event) : w.clock ≤ (w.emit env e).clock := by
  simp [World.emit]

theorem emit_trace (env : Env) (w : World) (e : Event) :
    (w.emit env e).trace = w.trace ++ [{ time := w.clock, ev := e }] := rfl

theorem Remind_facts (env : Env) (url : String) (r : Reminder) (w : World) :
    FiringFacts [] r w (r.Remind env url w).1.isOk (r.Remind env url w).2.1 (r.Remind env url w).2.2 := by
  have hG := GetSession_run env r.SessionID w
  unfold Reminder.Remind
  rcases hS : GetSession env r.SessionID w with ⟨res, w1⟩
  rw [hS] at hG
  obtain ⟨rs, htr, hclk, hreads, hfail⟩ := hG
  simp only at htr hclk hfail
  have hsince : w.since w1 = rs := since_of_trace htr
  have hPost := calls_of_reads (p := Event.isPost)
    (by intro e; cases e <;> simp [Event.isRead, Event.isPost]) hreads
  have hWrite := calls_of_reads (p := Event.isWrite)
    (by intro e; cases e <;> simp [Event.isRead, Event.isWrite]) hreads
  have hSleep := calls_of_reads (p := Event.isSleep)
    (by intro e; cases e <;> simp [Event.isRead, Event.isSleep]) hreads
  have hOkPost := occurs_of_reads (p := Event.isOkPost)
    (by intro e; cases e <;> simp [Event.isRead, Event.isOkPost]) hreads
  have hFailedPost := occurs_of_reads (p := Event.isFailedPost)
    (by intro e; cases e <;> simp [Event.isRead, Event.isFailedPost]) hreads
  have htimes : ∀ x ∈ rs, w.clock ≤ x.time := fun x hx => (hreads x hx).2
  cases res with
  | error e =>
    simp only []
    constructor <;> simp_all [Except.isOk, Except.toBool]
  | ok session =>
    simp only [Except.isOk, Except.toBool, Bool.not_true] at hfail
    simp only []
    cases hE : env.encode session with
    | error e =>
      simp only []
      constructor <;> simp_all [Except.isOk, Except.toBool]
    | ok buf =>
      simp only []
      cases hP : env.post w1.trace (url ++ "/notify") buf with
      | error e =>
        simp only []
        have hs2 := since_emit env (Event.post (url ++ "/notify") buf false) htr
        have hc2 := emit_clock env w1 (Event.post (url ++ "/notify") buf false)
        constructor
        all_goals (try rw [hs2])
        all_goals (try simp only [calls_append, calls_single, occurs_append, occurs_cons, occurs_nil,
          hPost, hWrite, hSleep, hOkPost, hFailedPost, hfail, Event.isPost, Event.isWrite,
          Event.isSleep, Event.isOkPost, Event.isFailedPost, Event.isFailedRead])
        all_goals (try simp [Except.isOk, Except.toBool])
        · simp [emit_trace, htr]
        · exact le_trans hclk hc2
        · rintro x (hx | rfl)
          · exact htimes x hx
          · exact hclk
      | ok u =>
        simp only []
        have hs2 := since_emit env (Event.post (url ++ "/notify") buf true) htr
        have hc2 := emit_clock env w1 (Event.post (url ++ "/notify") buf true)
        have htr2 : (w1.emit env (Event.post (url ++ "/notify") buf true)).trace =
            w.trace ++ (rs ++ [{ time := w1.clock, ev := Event.post (url ++ "/notify") buf true }]) := by
          simp [emit_trace, htr]
        by_cases h1 : (r.Time.Valid && r.MinutesPrior.isNone) = true
        · simp only [h1, if_true]
          cases hX : env.exec (w1.emit env (Event.post (url ++ "/notify") buf true)).trace
              (Stmt.updateReminderStatus Complete r.ID) with
          | error e =>
            simp only []
            have hs3 := since_emit env
              (Event.exec (Stmt.updateReminderStatus Complete r.ID) false) htr2
            have hc3 := emit_clock env (w1.emit env (Event.post (url ++ "/notify") buf true))
              (Event.exec (Stmt.updateReminderStatus Complete r.ID) false)
            have h1' : r.Time.Valid = true ∧ r.MinutesPrior = none := by simpa using h1
            constructor
            all_goals (try rw [hs3])
            all_goals (try simp only [calls_append, calls_single, calls_cons, calls_nil,
              occurs_append, occurs_cons, occurs_nil, hPost, hWrite, hSleep, hOkPost, hFailedPost,
              hfail, Event.isPost, Event.isWrite, Event.isSleep, Event.isOkPost,
              Event.isFailedPost, Event.isFailedRead])
            all_goals (try simp [Except.isOk, Except.toBool])
            · simp [emit_trace, htr]
            · exact le_trans hclk (le_trans hc2 hc3)
            · rintro x (hx | rfl | rfl)
              · exact htimes x hx
              · exact hclk
              · exact le_trans hclk hc2
            · exact h1'
          | ok v =>
            simp only []
            have hs3 := since_emit env
              (Event.exec (Stmt.updateReminderStatus Complete r.ID) true) htr2
            have hc3 := emit_clock env (w1.emit env (Event.post (url ++ "/notify") buf true))
              (Event.exec (Stmt.updateReminderStatus Complete r.ID) true)
            have h1' : r.Time.Valid = true ∧ r.MinutesPrior = none := by simpa using h1
            constructor
            all_goals (try rw [hs3])
            all_goals (try simp only [calls_append, calls_single, calls_cons, calls_nil,
              occurs_append, occurs_cons, occurs_nil, hPost, hWrite, hSleep, hOkPost, hFailedPost,
              hfail, Event.isPost, Event.isWrite, Event.isSleep, Event.isOkPost,
              Event.isFailedPost, Event.isFailedRead])
            all_goals (try simp [Except.isOk, Except.toBool])
            · simp [emit_trace, htr]
            · exact le_trans hclk (le_trans hc2 hc3)
            · rintro x (hx | rfl | rfl)
              · exact htimes x hx
              · exact hclk
              · exact le_trans hclk hc2
            · exact h1'
        · simp only [h1, Bool.false_eq_true, if_false]
          have h1' : ¬ (r.Time.Valid = true ∧ r.MinutesPrior = none) := by simpa using h1
          constructor
          all_goals (try rw [hs2])
          all_goals (try simp only [calls_append, calls_single, calls_cons, calls_nil,
            occurs_append, occurs_cons, occurs_nil, hPost, hWrite, hSleep, hOkPost, hFailedPost,
            hfail, Event.isPost, Event.isWrite, Event.isSleep, Event.isOkPost,
            Event.isFailedPost, Event.isFailedRead])
          all_goals (try simp [Except.isOk, Except.toBool])
          · simp [emit_trace, htr]
          · exact le_trans hclk hc2
          · rintro x (hx | rfl)
            · exact htimes x hx
            · exact hclk
          · intro hv hm; exact absurd ⟨hv, hm⟩ h1'

theorem calls_eq_nil {p : Event → Bool} {es : List Entry} (h : ∀ x ∈ es, p x.ev = false) :
    calls p es = [] := by
  simp only [calls, List.filter_eq_nil_iff]
  intro x hx
  simp [h x hx]

theorem occurs_eq_false {p : Event → Bool} {es : List Entry} (h : ∀ x ∈ es, p x.ev = false) :
    occurs p es = false := by
  simp only [occurs, List.any_eq_false]
  intro x hx
  simp [h x hx]

theorem isOkPost_false_of {e : Event} (h : e.isPost = false) : e.isOkPost = false := by
  cases e <;> simp_all [Event.isPost, Event.isOkPost]

theorem isFailedPost_false_of {e : Event} (h : e.isPost = false) : e.isFailedPost = false := by
  cases e <;> simp_all [Event.isPost, Event.isFailedPost]

/-- Calls that neither notify, nor write, nor are a failed read, made before a
firing, leave the facts of the firing as they are, their sleeps apart. -/
theorem FiringFacts.after (pre : List Entry) {sl : List Entry} {r r' : Reminder}
    {w w0 w' : World} {ok : Bool}
    (htr : w0.trace = w.trace ++ pre) (hclk : w.clock ≤ w0.clock)
    (hpre : ∀ x ∈ pre, w.clock ≤ x.time ∧ x.ev.isPost = false ∧ x.ev.isWrite = false ∧
      x.ev.isFailedRead = false)
    (h : FiringFacts sl r w0 ok r' w') :
    FiringFacts (calls Event.isSleep pre ++ sl) r w ok r' w' := by
  have hs : w.since w' = pre ++ w0.since w' :=
    since_of_trace (by rw [h.trace, htr, List.append_assoc])
  have hP : calls Event.isPost pre = [] := calls_eq_nil fun x hx => (hpre x hx).2.1
  have hW : calls Event.isWrite pre = [] := calls_eq_nil fun x hx => (hpre x hx).2.2.1
  have hF : occurs Event.isFailedRead pre = false := occurs_eq_false fun x hx => (hpre x hx).2.2.2
  have hO : occurs Event.isOkPost pre = false :=
    occurs_eq_false fun x hx => isOkPost_false_of (hpre x hx).2.1
  have hFP : occurs Event.isFailedPost pre = false :=
    occurs_eq_false fun x hx => isFailedPost_false_of (hpre x hx).2.1
  constructor
  all_goals (try rw [hs])
  all_goals (try simp only [calls_append, occurs_append, hP, hW, hF, hO, hFP, List.nil_append,
    Bool.false_or])
  · rw [h.trace, htr, List.append_assoc]
  · exact le_trans hclk h.clock
  · intro x hx
    rcases List.mem_append.mp hx with hx | hx
    · exact (hpre x hx).1
    · exact le_trans hclk (h.times x hx)
  · rw [h.sleep]
  · exact h.posts
  · exact h.failedRead
  · exact h.failedPost
  · exact h.okPost
  · exact h.writes
  · exact h.noWrite

/-- A log line written after a firing leaves its facts as they are. -/
theorem FiringFacts.log {sl : List Entry} {r r' : Reminder} {w w' : World} {ok : Bool}
    (env : Env) (msg : String) (h : FiringFacts sl r w ok r' w') :
    FiringFacts sl r w ok r' (w'.emit env (Event.log msg)) := by
  have hs : w.since (w'.emit env (Event.log msg)) =
      w.since w' ++ [{ time := w'.clock, ev := Event.log msg }] := since_emit env _ h.trace
  constructor
  all_goals (try rw [hs])
  all_goals (try simp only [calls_append, occurs_append, calls_single, occurs_cons, occurs_nil,
    Event.isPost, Event.isWrite, Event.isSleep, Event.isOkPost, Event.isFailedPost,
    Event.isFailedRead, Bool.false_eq_true, if_false, List.append_nil, Bool.or_false])
  · rw [emit_trace, h.trace, List.append_assoc]
  · exact le_trans h.clock (emit_clock env w' _)
  · intro x hx
    rcases List.mem_append.mp hx with hx | hx
    · exact h.times x hx
    · simp only [List.mem_singleton] at hx
      subst hx
      exact h.clock
  · exact h.sleep
  · exact h.posts
  · exact h.failedRead
  · exact h.failedPost
  · exact h.okPost
  · exact h.writes
  · exact h.noWrite

theorem remindAndLog_facts (env : Env) (url : String) (r : Reminder) (w : World) :
    FiringFacts [] r w (r.Remind env url w).1.isOk (remindAndLog env url r w).1
      (remindAndLog env url r w).2 := by
  have h := Remind_facts env url r w
  unfold remindAndLog
  rcases hR : r.Remind env url w with ⟨res, r1, w1⟩
  rw [hR] at h
  cases res with
  | error e => exact FiringFacts.log env _ h
  | ok u => exact h

/-- A run without notification and without store write that leaves the reminder
as it is. -/
theorem FiringFacts.idle (es : List Entry) {r : Reminder} {w w' : World}
    (htr : w'.trace = w.trace ++ es) (hclk : w.clock ≤ w'.clock)
    (hes : ∀ x ∈ es, w.clock ≤ x.time ∧ x.ev.isPost = false ∧ x.ev.isWrite = false) :
    FiringFacts (calls Event.isSleep es) r w false r w' := by
  have hs : w.since w' = es := since_of_trace htr
  have hP : calls Event.isPost es = [] := calls_eq_nil fun x hx => (hes x hx).2.1
  have hW : calls Event.isWrite es = [] := calls_eq_nil fun x hx => (hes x hx).2.2
  have hO : occurs Event.isOkPost es = false :=
    occurs_eq_false fun x hx => isOkPost_false_of (hes x hx).2.1
  have hFP : occurs Event.isFailedPost es = false :=
    occurs_eq_false fun x hx => isFailedPost_false_of (hes x hx).2.1
  constructor
  all_goals (try rw [hs])
  all_goals (try simp [hP, hW, hO, hFP])
  · exact htr
  · exact hclk
  · exact fun x hx => (hes x hx).1

/-! ## One dispatch task -/

theorem sleep_trace (env : Env) (d : Int) (w : World) :
    (GoTime.Sleep env d w).trace = w.trace ++ [{ time := w.clock, ev := Event.sleep d }] := rfl

theorem sleep_clock (env : Env) (d : Int) (w : World) :
    w.clock + d ≤ (GoTime.Sleep env d w).clock ∧ w.clock ≤ (GoTime.Sleep env d w).clock := by
  simp only [GoTime.Sleep]
  have h1 : d ≤ max d 0 := le_max_left d 0
  have h2 : (0 : Int) ≤ max d 0 := le_max_right d 0
  have h3 : (0 : Int) ≤ (env.elapsed w.trace : Int) := Int.natCast_nonneg _
  constructor <;> linarith

/-- The reads of a successful lookup are calls that neither notify, nor write,
nor fail. -/
theorem ReadRun.quiet {w w1 : World} (h : ReadRun true w w1) :
    ∃ rs : List Entry, w1.trace = w.trace ++ rs ∧ w.clock ≤ w1.clock ∧
      calls Event.isSleep rs = [] ∧
      ∀ x ∈ rs, w.clock ≤ x.time ∧ x.ev.isPost = false ∧ x.ev.isWrite = false ∧
        x.ev.isFailedRead = false := by
  obtain ⟨rs, htr, hclk, hreads, hfail⟩ := h
  refine ⟨rs, htr, hclk, ?_, ?_⟩
  · exact calls_of_reads (by intro e; cases e <;> simp [Event.isRead, Event.isSleep]) hreads
  · intro x hx
    have hr := (hreads x hx).1
    have hf : x.ev.isFailedRead = false := by
      simp only [occurs, Bool.not_true, List.any_eq_false] at hfail
      simpa using hfail x hx
    refine ⟨(hreads x hx).2, ?_, ?_, hf⟩
    · cases hx' : x.ev <;> simp_all [Event.isRead, Event.isPost]
    · cases hx' : x.ev <;> simp_all [Event.isRead, Event.isWrite]

theorem dispatchTask_facts (env : Env) (url : String) (r : Reminder) (w : World) :
    ∃ sl ok, FiringFacts sl r w ok (dispatchTask env url r w).1 (dispatchTask env url r w).2 := by
  unfold dispatchTask
  by_cases hS : (r.Status != Complete) = true
  · simp only [hS, if_true]
    by_cases hV : r.Time.Valid = true
    · simp only [hV, if_true]
      by_cases hA : GoTime.After w.clock r.Time.Time = true
      · simp only [hA, if_true]
        exact ⟨_, _, remindAndLog_facts env url r w⟩
      · simp only [hA, Bool.false_eq_true, if_false]
        refine ⟨_, _, FiringFacts.after _ (sleep_trace env _ w) (sleep_clock env _ w).2 ?_
          (remindAndLog_facts env url r _)⟩
        intro x hx
        simp only [List.mem_singleton] at hx
        subst hx
        simp [Event.isPost, Event.isWrite, Event.isFailedRead]
    · simp only [hV, Bool.false_eq_true, if_false]
      cases hM : r.MinutesPrior with
      | none =>
        simp only []
        exact ⟨_, _, FiringFacts.idle [] (by simp) (le_refl _) (by simp)⟩
      | some m =>
        simp only []
        have hG := GetSession_run env r.SessionID w
        rcases hL : GetSession env r.SessionID w with ⟨res, w1⟩
        rw [hL] at hG
        cases res with
        | error e =>
          simp only []
          obtain ⟨rs, htr, hclk, hreads, -⟩ := hG
          refine ⟨_, _, FiringFacts.idle
            (rs ++ [{ time := w1.clock, ev := Event.log ("failed to get session: " ++ e) }])
            (by rw [emit_trace, htr, List.append_assoc]) (le_trans hclk (emit_clock env w1 _)) ?_⟩
          intro x hx
          rcases List.mem_append.mp hx with hx | hx
          · have hr := (hreads x hx).1
            refine ⟨(hreads x hx).2, ?_, ?_⟩
            · cases hx' : x.ev <;> simp_all [Event.isRead, Event.isPost]
            · cases hx' : x.ev <;> simp_all [Event.isRead, Event.isWrite]
          · simp only [List.mem_singleton] at hx
            subst hx
            exact ⟨hclk, rfl, rfl⟩
        | ok session =>
          simp only [Except.isOk, Except.toBool] at hG
          obtain ⟨rs, htr, hclk, -, hq⟩ := hG.quiet
          simp only []
          by_cases hA : GoTime.After w.clock
              (GoTime.Add session.Timestamp (GoTime.mulDuration (-GoTime.Minute) m)) = true
          · simp only [hA, if_true]
            exact ⟨_, _, FiringFacts.after _ htr hclk hq (remindAndLog_facts env url r w1)⟩
          · simp only [hA, Bool.false_eq_true, if_false]
            refine ⟨_, _, FiringFacts.after
              (rs ++ [{ time := w1.clock, ev := Event.sleep (GoTime.Sub
                (GoTime.Add session.Timestamp (GoTime.mulDuration (-GoTime.Minute) m)) w.clock) }])
              (by rw [sleep_trace, htr, List.append_assoc])
              (le_trans hclk (sleep_clock env _ w1).2) ?_ (remindAndLog_facts env url r _)⟩
            intro x hx
            rcases List.mem_append.mp hx with hx | hx
            · exact hq x hx
            · simp only [List.mem_singleton] at hx
              subst hx
              exact ⟨hclk, rfl, rfl, rfl⟩
  · simp only [hS, Bool.false_eq_true, if_false]
    exact ⟨_, _, FiringFacts.idle [] (by simp) (le_refl _) (by simp)⟩

/-- The tags of the notification in the history of `Remind` are the answers of
the outside world: a successful (failed) notification is recorded exactly when
the lookup and the encoding succeed and the post succeeds (fails). -/
theorem Remind_post_outcome (env : Env) (url : String) (r : Reminder) (w : World) :
    (occurs Event.isOkPost (w.since (r.Remind env url w).2.2) = true ↔
      ∃ session w1 buf, GetSession env r.SessionID w = (Except.ok session, w1) ∧
        env.encode session = Except.ok buf ∧
        env.post w1.trace (url ++ "/notify") buf = Except.ok ()) ∧
    (occurs Event.isFailedPost (w.since (r.Remind env url w).2.2) = true ↔
      ∃ session w1 buf e, GetSession env r.SessionID w = (Except.ok session, w1) ∧
        env.encode session = Except.ok buf ∧
        env.post w1.trace (url ++ "/notify") buf = Except.error e) := by
  have hG := GetSession_run env r.SessionID w
  unfold Reminder.Remind
  rcases hS : GetSession env r.SessionID w with ⟨res, w1⟩
  rw [hS] at hG
  obtain ⟨rs, htr, hclk, hreads, -⟩ := hG
  simp only at htr hclk
  have hsince : w.since w1 = rs := since_of_trace htr
  have hOkPost := occurs_of_reads (p := Event.isOkPost)
    (by intro e; cases e <;> simp [Event.isRead, Event.isOkPost]) hreads
  have hFailedPost := occurs_of_reads (p := Event.isFailedPost)
    (by intro e; cases e <;> simp [Event.isRead, Event.isFailedPost]) hreads
  cases res with
  | error e => simp [hsince, hOkPost, hFailedPost]
  | ok session =>
    simp only []
    cases hE : env.encode session with
    | error e => simp [hsince, hOkPost, hFailedPost, hE]
    | ok buf =>
      simp only []
      cases hP : env.post w1.trace (url ++ "/notify") buf with
      | error e =>
        simp only []
        rw [since_emit env (Event.post (url ++ "/notify") buf false) htr]
        simp [occurs_append, occurs_cons, occurs_nil, hOkPost, hFailedPost, Event.isOkPost,
          Event.isFailedPost, hE, hP]
        exact ⟨session, w1, ⟨rfl, rfl⟩, buf, hE, e, hP⟩
      | ok u =>
        simp only []
        have hs2 := since_emit env (Event.post (url ++ "/notify") buf true) htr
        have htr2 : (w1.emit env (Event.post (url ++ "/notify") buf true)).trace =
            w.trace ++ (rs ++ [{ time := w1.clock, ev := Event.post (url ++ "/notify") buf true }]) := by
          simp [emit_trace, htr]
        by_cases h1 : (r.Time.Valid && r.MinutesPrior.isNone) = true
        · simp only [h1, if_true]
          cases hX : env.exec (w1.emit env (Event.post (url ++ "/notify") buf true)).trace
              (Stmt.updateReminderStatus Complete r.ID) with
          | error e =>
            simp only []
            rw [since_emit env
              (Event.exec (Stmt.updateReminderStatus Complete r.ID) false) htr2]
            simp [occurs_append, occurs_cons, occurs_nil, hOkPost, hFailedPost, Event.isOkPost,
              Event.isFailedPost, hE, hP]
            exact ⟨session, w1, ⟨rfl, rfl⟩, buf, hE, hP⟩
          | ok v =>
            simp only []
            rw [since_emit env
              (Event.exec (Stmt.updateReminderStatus Complete r.ID) true) htr2]
            simp [occurs_append, occurs_cons, occurs_nil, hOkPost, hFailedPost, Event.isOkPost,
              Event.isFailedPost, hE, hP]
            exact ⟨session, w1, ⟨rfl, rfl⟩, buf, hE, hP⟩
        · simp only [h1, Bool.false_eq_true, if_false]
          rw [hs2]
          simp [occurs_append, occurs_cons, occurs_nil, hOkPost, hFailedPost, Event.isOkPost,
            Event.isFailedPost, hE, hP]
          exact ⟨session, w1, ⟨rfl, rfl⟩, buf, hE, hP⟩

theorem dispatchTask_absolute (env : Env) (url : String) (r : Reminder) (w : World)
    (hS : r.Status ≠ Complete) (hV : r.Time.Valid = true) :
    dispatchTask env url r w = remindAndLog env url r
      (if r.Time.Time < w.clock then w
       else GoTime.Sleep env (GoTime.Sub r.Time.Time w.clock) w) := by
  unfold dispatchTask
  have hS' : (r.Status != Complete) = true := by simpa using hS
  simp only [hS', if_true, hV, GoTime.After, decide_eq_true_eq]
  split_ifs <;> rfl

theorem takeWhile_reads {t0 : Int} {rs : List Entry} (rest : List Entry)
    (h : ∀ x ∈ rs, x.ev.isRead = true ∧ t0 ≤ x.time) :
    (rs ++ rest).takeWhile (fun x => !x.ev.isWrite) =
      rs ++ rest.takeWhile (fun x => !x.ev.isWrite) := by
  apply List.takeWhile_append_of_pos
  intro x hx
  have hr := (h x hx).1
  cases hx' : x.ev <;> simp_all [Event.isRead, Event.isWrite]

/-- With a valid time, an offset changes one thing in a firing: the calls are
those of the same reminder without the offset up to, and without, the store
write. -/
theorem remindAndLog_offset (env : Env) (url : String) (r : Reminder) (w : World) (m : Int)
    (hV : r.Time.Valid = true) (hM : r.MinutesPrior = some m) :
    w.since (remindAndLog env url r w).2 =
        (w.since (remindAndLog env url { r with MinutesPrior := none } w).2).takeWhile
          (fun x => !x.ev.isWrite) ∧
      calls Event.isPost (w.since (remindAndLog env url r w).2) =
        calls Event.isPost (w.since (remindAndLog env url { r with MinutesPrior := none } w).2) := by
  have hG := GetSession_run env r.SessionID w
  unfold remindAndLog Reminder.Remind
  simp only [hV, hM, Option.isNone_some, Option.isNone_none, Bool.and_false, Bool.and_true,
    Bool.false_eq_true, if_false, if_true]
  rcases hS : GetSession env r.SessionID w with ⟨res, w1⟩
  rw [hS] at hG
  obtain ⟨rs, htr, hclk, hreads, -⟩ := hG
  simp only at htr hclk
  have hPost := calls_of_reads (p := Event.isPost)
    (by intro e; cases e <;> simp [Event.isRead, Event.isPost]) hreads
  cases res with
  | error e =>
    simp only []
    rw [since_emit env _ htr, takeWhile_reads _ hreads]
    simp [Event.isWrite]
  | ok session =>
    simp only []
    cases hE : env.encode session with
    | error e =>
      simp only []
      rw [since_emit env _ htr, takeWhile_reads _ hreads]
      simp [Event.isWrite]
    | ok buf =>
      simp only []
      cases hP : env.post w1.trace (url ++ "/notify") buf with
      | error e =>
        simp only []
        have hs : w.since ((w1.emit env (Event.post (url ++ "/notify") buf false)).emit env
            (Event.log ("failed to remind user: " ++ ("failed to notify: " ++ e)))) =
            rs ++ [{ time := w1.clock, ev := Event.post (url ++ "/notify") buf false },
              { time := (w1.emit env (Event.post (url ++ "/notify") buf false)).clock,
                ev := Event.log ("failed to remind user: " ++ ("failed to notify: " ++ e)) }] :=
          since_of_trace (by simp [emit_trace, htr])
        rw [hs, takeWhile_reads _ hreads]
        simp [Event.isWrite]
      | ok u =>
        simp only []
        have hs : w.since (w1.emit env (Event.post (url ++ "/notify") buf true)) =
            rs ++ [{ time := w1.clock, ev := Event.post (url ++ "/notify") buf true }] :=
          since_emit env _ htr
        rw [hs]
        cases hX : env.exec (w1.emit env (Event.post (url ++ "/notify") buf true)).trace
            (Stmt.updateReminderStatus Complete r.ID) with
        | error e =>
          simp only []
          have hs2 : w.since (((w1.emit env (Event.post (url ++ "/notify") buf true)).emit env
              (Event.exec (Stmt.updateReminderStatus Complete r.ID) false)).emit env
              (Event.log ("failed to remind user: " ++ ("failed to update reminder: " ++ e)))) =
              rs ++ [{ time := w1.clock, ev := Event.post (url ++ "/notify") buf true },
                { time := (w1.emit env (Event.post (url ++ "/notify") buf true)).clock,
                  ev := Event.exec (Stmt.updateReminderStatus Complete r.ID) false },
                { time := ((w1.emit env (Event.post (url ++ "/notify") buf true)).emit env
                    (Event.exec (Stmt.updateReminderStatus Complete r.ID) false)).clock,
                  ev := Event.log
                    ("failed to remind user: " ++ ("failed to update reminder: " ++ e)) }] :=
            since_of_trace (by simp [emit_trace, htr])
          rw [hs2, takeWhile_reads _ hreads]
          simp [Event.isWrite, calls_append, calls_cons, calls_nil, Event.isPost]
        | ok v =>
          simp only []
          have hs2 : w.since ((w1.emit env (Event.post (url ++ "/notify") buf true)).emit env
              (Event.exec (Stmt.updateReminderStatus Complete r.ID) true)) =
              rs ++ [{ time := w1.clock, ev := Event.post (url ++ "/notify") buf true },
                { time := (w1.emit env (Event.post (url ++ "/notify") buf true)).clock,
                  ev := Event.exec (Stmt.updateReminderStatus Complete r.ID) true }] :=
            since_of_trace (by simp [emit_trace, htr])
          rw [hs2, takeWhile_reads _ hreads]
          simp [Event.isWrite, calls_append, calls_cons, calls_nil, Event.isPost]

/-! ## Saving -/

theorem saveDays_run (env : Env) (fid : Int) (ds : List Int) :
    ∀ w : World, (saveDays env fid ds w).1 ≠ Outcome.fault ∧
      ∃ es, (saveDays env fid ds w).2.trace = w.trace ++ es := by
  induction ds with
  | nil => intro w; exact ⟨by simp [saveDays], [], by simp [saveDays]⟩
  | cons d rest ih =>
    intro w
    unfold saveDays
    cases env.exec w.trace (Stmt.insertFrequencyDay fid d) with
    | error e => exact ⟨by simp, _, emit_trace env w _⟩
    | ok v =>
      obtain ⟨h1, es, h2⟩ := ih (w.emit env (Event.exec (Stmt.insertFrequencyDay fid d) true))
      refine ⟨h1, { time := w.clock, ev := Event.exec (Stmt.insertFrequencyDay fid d) true } :: es,
        ?_⟩
      simp only []
      rw [h2, emit_trace, List.append_assoc, List.singleton_append]

theorem Frequency_Save_run (env : Env) (f : Frequency) (w : World) :
    (Frequency.Save env f w).1 ≠ Outcome.fault ∧
      ∃ es, (Frequency.Save env f w).2.2.trace = w.trace ++ es := by
  unfold Frequency.Save
  cases env.exec w.trace (Stmt.insertFrequency f.StartDate f.EndDate f.Type_) with
  | error e => exact ⟨by simp, _, emit_trace env w _⟩
  | ok v =>
    obtain ⟨id, lastErr⟩ := v
    cases lastErr with
    | some e => exact ⟨by simp, _, emit_trace env w _⟩
    | none =>
      simp only []
      obtain ⟨h1, es, h2⟩ := saveDays_run env id f.Days
        (w.emit env (Event.exec (Stmt.insertFrequency f.StartDate f.EndDate f.Type_) true))
      refine ⟨h1,
        Entry.mk w.clock (Event.exec (Stmt.insertFrequency f.StartDate f.EndDate f.Type_) true)
          :: es, ?_⟩
      rw [h2, emit_trace, List.append_assoc, List.singleton_append]

theorem Routine_Save_run (env : Env) (r : Routine) (w : World) :
    (Routine.Save env r w).1 ≠ Outcome.fault ∧
      ∃ es, (Routine.Save env r w).2.2.trace = w.trace ++ es := by
  unfold Routine.Save
  simp only []
  cases env.exec w.trace _ with
  | error e => exact ⟨by simp, _, emit_trace env w _⟩
  | ok v =>
    obtain ⟨id, lastErr⟩ := v
    cases lastErr with
    | some e => exact ⟨by simp, _, emit_trace env w _⟩
    | none => exact ⟨by simp, _, emit_trace env w _⟩

theorem Reminder_Save_run (env : Env) (r : Reminder) (w : World) :
    (r.MinutesPrior = none → (Reminder.Save env r w).1 = Outcome.fault ∧
      (Reminder.Save env r w).2.2 = w) ∧
    (∀ m, r.MinutesPrior = some m → (Reminder.Save env r w).1 ≠ Outcome.fault ∧
      ∃ b, (Reminder.Save env r w).2.2 = w.emit env (Event.exec (Stmt.insertReminder r.SessionID
        r.Time m (if r.Status == "" then Pending else r.Status)) b)) := by
  have h0 : ∀ r0 : Reminder, (if r.Status == "" then { r with Status := Pending } else r) = r0 →
      r0.MinutesPrior = r.MinutesPrior ∧ r0.SessionID = r.SessionID ∧ r0.Time = r.Time ∧
        r0.Status = (if r.Status == "" then Pending else r.Status) := by
    intro r0 h
    subst h
    split_ifs <;> exact ⟨rfl, rfl, rfl, rfl⟩
  unfold Reminder.Save
  generalize hr0 : (if r.Status == "" then { r with Status := Pending } else r) = r0
  obtain ⟨e1, e2, e3, e4⟩ := h0 r0 hr0
  simp only []
  constructor
  · intro hM
    rw [hM] at e1
    simp [e1]
  · intro m hM
    rw [hM] at e1
    simp only [e1, e2, e3, e4]
    cases env.exec w.trace _ with
    | error e => exact ⟨by simp, false, rfl⟩
    | ok v =>
      obtain ⟨id, lastErr⟩ := v
      cases lastErr with
      | some e => exact ⟨by simp, true, rfl⟩
      | none => exact ⟨by simp, true, rfl⟩

theorem saveReminders_run (env : Env) (sid : Int) (rs : List Reminder) :
    ∀ w : World,
      ((∃ r ∈ rs, r.MinutesPrior = none) → (saveReminders env sid rs w).1 ≠ Outcome.ok) ∧
      ((saveReminders env sid rs w).1 = Outcome.fault → ∃ r ∈ rs, r.MinutesPrior = none) ∧
      ∃ es, (saveReminders env sid rs w).2.trace = w.trace ++ es := by
  induction rs with
  | nil => intro w; simp [saveReminders]
  | cons r rest ih =>
    intro w
    have hrun := Reminder_Save_run env { r with SessionID := sid } w
    unfold saveReminders
    rcases hSv : Reminder.Save env { r with SessionID := sid } w with ⟨o, r2, w1⟩
    rw [hSv] at hrun
    simp only at hrun
    cases hM : r.MinutesPrior with
    | none =>
      obtain ⟨h1, h2⟩ := hrun.1 hM
      subst h1 h2
      exact ⟨fun _ => by simp, fun _ => ⟨r, List.mem_cons_self _ _, hM⟩, [], by simp⟩
    | some m =>
      obtain ⟨h1, b, h2⟩ := hrun.2 m hM
      subst h2
      cases o with
      | fault => exact absurd rfl h1
      | error e => exact ⟨fun _ => by simp, fun h => by simp at h, _, emit_trace env w _⟩
      | ok =>
        simp only []
        obtain ⟨i1, i2, es, i3⟩ := ih (w.emit env (Event.exec (Stmt.insertReminder sid r.Time m
          (if r.Status == "" then Pending else r.Status)) b))
        refine ⟨?_, ?_, Entry.mk w.clock (Event.exec (Stmt.insertReminder sid r.Time m
          (if r.Status == "" then Pending else r.Status)) b) :: es, ?_⟩
        · rintro ⟨x, hx, hxm⟩
          rcases List.mem_cons.mp hx with rfl | hx
          · rw [hM] at hxm; exact Option.noConfusion hxm
          · exact i1 ⟨x, hx, hxm⟩
        · intro h
          obtain ⟨x, hx, hxm⟩ := i2 h
          exact ⟨x, List.mem_cons_of_mem _ hx, hxm⟩
        · rw [i3, emit_trace, List.append_assoc, List.singleton_append]

theorem occurs_sessionInsert {w w1 : World} {es1 es3 : List Entry} {w3 : World} (env : Env)
    (stmt : Stmt) (hstmt : (Event.exec stmt true).isSessionInsert = true)
    (h1 : w1.trace = w.trace ++ es1)
    (h3 : w3.trace = (w1.emit env (Event.exec stmt true)).trace ++ es3) :
    occurs Event.isSessionInsert (w.since w3) = true := by
  have hs : w.since w3 = es1 ++ ([Entry.mk w1.clock (Event.exec stmt true)] ++ es3) :=
    since_of_trace (by rw [h3, emit_trace, h1]; simp)
  rw [hs, occurs_append, occurs_append, occurs_cons, hstmt]
  simp

theorem saveSessionRest_run (env : Env) (s : Session) (routine : Routine) (w : World) :
    ((∃ r ∈ s.Reminders, r.MinutesPrior = none) →
      (saveSessionRest env s routine w).1 ≠ Outcome.ok) ∧
    ((saveSessionRest env s routine w).1 = Outcome.fault →
      (∃ r ∈ s.Reminders, r.MinutesPrior = none) ∧
        occurs Event.isSessionInsert (w.since (saveSessionRest env s routine w).2.2) = true) := by
  have hF : ∀ saved : Outcome × Frequency × World,
      saved = (if s.Frequency.ID == 0 then Frequency.Save env s.Frequency w
        else (Outcome.ok, s.Frequency, w)) →
      saved.1 ≠ Outcome.fault ∧ ∃ es, saved.2.2.trace = w.trace ++ es := by
    intro saved h
    subst h
    split_ifs
    · exact Frequency_Save_run env s.Frequency w
    · exact ⟨by simp, [], by simp⟩
  unfold saveSessionRest
  simp only []
  generalize hsv : (if s.Frequency.ID == 0 then Frequency.Save env s.Frequency w
        else (Outcome.ok, s.Frequency, w)) = saved
  obtain ⟨o, f1, w1⟩ := saved
  obtain ⟨h1, es1, h2⟩ := hF _ hsv.symm
  simp only at h1 h2
  cases o with
  | fault => exact absurd rfl h1
  | error e => exact ⟨fun _ => by simp, fun h => by simp at h⟩
  | ok =>
    simp only []
    cases hX : env.exec w1.trace (Stmt.insertSession s.UserID
        (if s.Title == "" then routine.Name else s.Title) routine.ID s.Timestamp
        (if s.Duration == 0 then routine.Duration else s.Duration) f1.ID s.Notes) with
    | error e => exact ⟨fun _ => by simp, fun h => by simp at h⟩
    | ok v =>
      obtain ⟨id, lastErr⟩ := v
      cases lastErr with
      | some e => exact ⟨fun _ => by simp, fun h => by simp at h⟩
      | none =>
        simp only []
        obtain ⟨i1, i2, es3, i3⟩ := saveReminders_run env id s.Reminders
          (w1.emit env (Event.exec (Stmt.insertSession s.UserID
            (if s.Title == "" then routine.Name else s.Title) routine.ID s.Timestamp
            (if s.Duration == 0 then routine.Duration else s.Duration) f1.ID s.Notes) true))
        rcases hR : saveReminders env id s.Reminders
          (w1.emit env (Event.exec (Stmt.insertSession s.UserID
            (if s.Title == "" then routine.Name else s.Title) routine.ID s.Timestamp
            (if s.Duration == 0 then routine.Duration else s.Duration) f1.ID s.Notes) true))
          with ⟨o, w3⟩
        rw [hR] at i1 i2 i3
        simp only at i1 i2 i3 ⊢
        exact ⟨i1, fun h => ⟨i2 h, occurs_sessionInsert env (Stmt.insertSession s.UserID
            (if s.Title == "" then routine.Name else s.Title) routine.ID s.Timestamp
            (if s.Duration == 0 then routine.Duration else s.Duration) f1.ID s.Notes) rfl h2 i3⟩⟩

theorem occurs_since_mono {p : Event → Bool} {w w1 w' : World}
    (hlen : w.trace.length ≤ w1.trace.length) (h : occurs p (w1.since w') = true) :
    occurs p (w.since w') = true := by
  simp only [occurs, World.since, List.any_eq_true] at h ⊢
  obtain ⟨x, hx, hp⟩ := h
  refine ⟨x, ?_, hp⟩
  have hd : List.drop w1.trace.length w'.trace =
      List.drop (w1.trace.length - w.trace.length) (List.drop w.trace.length w'.trace) := by
    rw [List.drop_drop]
    congr 1
    omega
  rw [hd] at hx
  exact List.mem_of_mem_drop hx

theorem Session_Save_run (env : Env) (s : Session) (w : World) :
    ((∃ r ∈ s.Reminders, r.MinutesPrior = none) → (Session.Save env s w).1 ≠ Outcome.ok) ∧
    ((Session.Save env s w).1 = Outcome.fault →
      (∃ r ∈ s.Reminders, r.MinutesPrior = none) ∧
        occurs Event.isSessionInsert (w.since (Session.Save env s w).2.2) = true) := by
  unfold Session.Save
  cases hR : s.Routine with
  | none => exact saveSessionRest_run env s Routine.zero w
  | some routine =>
    simp only []
    by_cases h0 : (routine.ID == 0) = true
    · simp only [h0, if_true]
      obtain ⟨h1, es, h2⟩ := Routine_Save_run env routine w
      rcases hSv : Routine.Save env routine w with ⟨o, routine1, w1⟩
      rw [hSv] at h1 h2
      simp only at h1 h2
      cases o with
      | fault => exact absurd rfl h1
      | error e => exact ⟨fun _ => by simp, fun h => by simp at h⟩
      | ok =>
        simp only []
        obtain ⟨i1, i2⟩ := saveSessionRest_run env s routine1 w1
        refine ⟨i1, fun h => ⟨(i2 h).1, ?_⟩⟩
        exact occurs_since_mono (by rw [h2]; simp) (i2 h).2
    · simp only [h0, Bool.false_eq_true, if_false]
      exact saveSessionRest_run env s routine w

theorem refused_append (env : Env) (a b : List Entry) :
    ∀ before : List Entry,
      refused env before (a ++ b) = (refused env before a || refused env (before ++ a) b) := by
  induction a with
  | nil => intro before; simp [refused]
  | cons x xs ih =>
    intro before
    have h := ih (before ++ [x])
    rw [List.append_assoc, List.singleton_append] at h
    show ((match x.ev with
          | Event.exec stmt _ => refusedAnswer stmt (env.exec before stmt)
          | _ => false) || refused env (before ++ [x]) (xs ++ b)) =
      (((match x.ev with
          | Event.exec stmt _ => refusedAnswer stmt (env.exec before stmt)
          | _ => false) || refused env (before ++ [x]) xs) ||
        refused env (before ++ x :: xs) b)
    rw [h, Bool.or_assoc]

theorem SaveRun.none (env : Env) (o : Outcome) (w : World) (h : o.isError = false) :
    SaveRun env o w w :=
  ⟨[], by simp, by simp [refused, h]⟩

theorem SaveRun.exec (env : Env) (o : Outcome) (w : World) (stmt : Stmt) (b : Bool)
    (h : refusedAnswer stmt (env.exec w.trace stmt) = o.isError) :
    SaveRun env o w (w.emit env (Event.exec stmt b)) :=
  ⟨[{ time := w.clock, ev := Event.exec stmt b }], rfl, by simp [refused, h]⟩

theorem SaveRun.andThen {env : Env} {o1 o : Outcome} {w w1 w2 : World}
    (h1 : SaveRun env o1 w w1) (ho : o1.isError = false) (h2 : SaveRun env o w1 w2) :
    SaveRun env o w w2 := by
  obtain ⟨es1, ht1, hr1⟩ := h1
  obtain ⟨es2, ht2, hr2⟩ := h2
  refine ⟨es1 ++ es2, by rw [ht2, ht1, List.append_assoc], ?_⟩
  rw [refused_append, hr1, ho, ← ht1, hr2]
  simp

theorem SaveRun.congr {env : Env} {o o' : Outcome} {w w' : World}
    (h : SaveRun env o w w') (ho : o'.isError = o.isError) : SaveRun env o' w w' := by
  obtain ⟨es, ht, hr⟩ := h
  exact ⟨es, ht, by rw [hr, ho]⟩

theorem Routine_Save_refused (env : Env) (r : Routine) (w : World) :
    SaveRun env (Routine.Save env r w).1 w (Routine.Save env r w).2.2 := by
  unfold Routine.Save
  simp only []
  cases hX : env.exec w.trace _ with
  | error e => exact SaveRun.exec env _ w _ false (by rw [hX]; rfl)
  | ok v =>
    obtain ⟨id, lastErr⟩ := v
    cases lastErr with
    | some e => exact SaveRun.exec env _ w _ true (by rw [hX]; rfl)
    | none => exact SaveRun.exec env _ w _ true (by rw [hX]; rfl)

theorem saveDays_refused (env : Env) (fid : Int) (ds : List Int) :
    ∀ w : World, SaveRun env (saveDays env fid ds w).1 w (saveDays env fid ds w).2 := by
  induction ds with
  | nil => intro w; exact SaveRun.none env _ w rfl
  | cons d rest ih =>
    intro w
    unfold saveDays
    cases hX : env.exec w.trace (Stmt.insertFrequencyDay fid d) with
    | error e => exact SaveRun.exec env _ w _ false (by rw [hX]; rfl)
    | ok v =>
      simp only []
      refine SaveRun.andThen
        (SaveRun.exec env Outcome.ok w (Stmt.insertFrequencyDay fid d) true ?_) rfl (ih _)
      rw [hX]
      obtain ⟨id, lastErr⟩ := v
      cases lastErr <;> rfl

theorem Frequency_Save_refused (env : Env) (f : Frequency) (w : World) :
    SaveRun env (Frequency.Save env f w).1 w (Frequency.Save env f w).2.2 := by
  unfold Frequency.Save
  cases hX : env.exec w.trace (Stmt.insertFrequency f.StartDate f.EndDate f.Type_) with
  | error e => exact SaveRun.exec env _ w _ false (by rw [hX]; rfl)
  | ok v =>
    obtain ⟨id, lastErr⟩ := v
    cases lastErr with
    | some e => exact SaveRun.exec env _ w _ true (by rw [hX]; rfl)
    | none =>
      simp only []
      exact SaveRun.andThen
        (SaveRun.exec env Outcome.ok w _ true (by rw [hX]; rfl)) rfl (saveDays_refused env id f.Days _)

theorem Reminder_Save_refused (env : Env) (r : Reminder) (w : World) :
    SaveRun env (Reminder.Save env r w).1 w (Reminder.Save env r w).2.2 := by
  unfold Reminder.Save
  simp only []
  split
  · exact SaveRun.none env _ w rfl
  · cases hX : env.exec w.trace _ with
    | error e => exact SaveRun.exec env _ w _ false (by rw [hX]; rfl)
    | ok v =>
      obtain ⟨id, lastErr⟩ := v
      cases lastErr with
      | some e => exact SaveRun.exec env _ w _ true (by rw [hX]; rfl)
      | none => exact SaveRun.exec env _ w _ true (by rw [hX]; rfl)

theorem saveReminders_refused (env : Env) (sid : Int) (rs : List Reminder) :
    ∀ w : World, SaveRun env (saveReminders env sid rs w).1 w (saveReminders env sid rs w).2 := by
  induction rs with
  | nil => intro w; exact SaveRun.none env _ w rfl
  | cons r rest ih =>
    intro w
    have hrun := Reminder_Save_refused env { r with SessionID := sid } w
    unfold saveReminders
    rcases hSv : Reminder.Save env { r with SessionID := sid } w with ⟨o, r2, w1⟩
    rw [hSv] at hrun
    simp only at hrun
    cases o with
    | fault => exact hrun
    | error e => exact hrun.congr rfl
    | ok => exact SaveRun.andThen hrun rfl (ih w1)

theorem saveSessionRest_refused (env : Env) (s : Session) (routine : Routine) (w : World) :
    SaveRun env (saveSessionRest env s routine w).1 w (saveSessionRest env s routine w).2.2 := by
  have hF : ∀ saved : Outcome × Frequency × World,
      saved = (if s.Frequency.ID == 0 then Frequency.Save env s.Frequency w
        else (Outcome.ok, s.Frequency, w)) →
      SaveRun env saved.1 w saved.2.2 := by
    intro saved h
    subst h
    split_ifs
    · exact Frequency_Save_refused env s.Frequency w
    · exact SaveRun.none env _ w rfl
  unfold saveSessionRest
  simp only []
  generalize hsv : (if s.Frequency.ID == 0 then Frequency.Save env s.Frequency w
        else (Outcome.ok, s.Frequency, w)) = saved
  obtain ⟨o, f1, w1⟩ := saved
  have h1 := hF _ hsv.symm
  simp only at h1
  cases o with
  | fault => exact h1
  | error e => exact h1.congr rfl
  | ok =>
    simp only []
    cases hX : env.exec w1.trace (Stmt.insertSession s.UserID
        (if s.Title == "" then routine.Name else s.Title) routine.ID s.Timestamp
        (if s.Duration == 0 then routine.Duration else s.Duration) f1.ID s.Notes) with
    | error e => exact SaveRun.andThen h1 rfl (SaveRun.exec env _ w1 _ false (by rw [hX]; rfl))
    | ok v =>
      obtain ⟨id, lastErr⟩ := v
      cases lastErr with
      | some e => exact SaveRun.andThen h1 rfl (SaveRun.exec env _ w1 _ true (by rw [hX]; rfl))
      | none =>
        simp only []
        have h2 := SaveRun.exec env Outcome.ok w1 (Stmt.insertSession s.UserID
          (if s.Title == "" then routine.Name else s.Title) routine.ID s.Timestamp
          (if s.Duration == 0 then routine.Duration else s.Duration) f1.ID s.Notes) true
          (by rw [hX]; rfl)
        have h3 := saveReminders_refused env id s.Reminders
          (w1.emit env (Event.exec (Stmt.insertSession s.UserID
            (if s.Title == "" then routine.Name else s.Title) routine.ID s.Timestamp
            (if s.Duration == 0 then routine.Duration else s.Duration) f1.ID s.Notes) true))
        rcases hR : saveReminders env id s.Reminders
          (w1.emit env (Event.exec (Stmt.insertSession s.UserID
            (if s.Title == "" then routine.Name else s.Title) routine.ID s.Timestamp
            (if s.Duration == 0 then routine.Duration else s.Duration) f1.ID s.Notes) true))
          with ⟨o, w3⟩
        rw [hR] at h3
        exact SaveRun.andThen (SaveRun.andThen h1 rfl h2) rfl h3

theorem Session_Save_refused (env : Env) (s : Session) (w : World) :
    SaveRun env (Session.Save env s w).1 w (Session.Save env s w).2.2 := by
  unfold Session.Save
  cases hR : s.Routine with
  | none => exact saveSessionRest_refused env s Routine.zero w
  | some routine =>
    simp only []
    by_cases h0 : (routine.ID == 0) = true
    · simp only [h0, if_true]
      have h1 := Routine_Save_refused env routine w
      rcases hSv : Routine.Save env routine w with ⟨o, routine1, w1⟩
      rw [hSv] at h1
      simp only at h1
      cases o with
      | fault => exact h1
      | error e => exact h1.congr rfl
      | ok => exact SaveRun.andThen h1 rfl (saveSessionRest_refused env s routine1 w1)
    · simp only [h0, Bool.false_eq_true, if_false]
      exact saveSessionRest_refused env s routine w

/-- A `Save` method returns an error exactly when the store refused one of the
writes it made. -/
theorem SaveRun.refused_iff {env : Env} {o : Outcome} {w w' : World} (h : SaveRun env o w w') :
    refused env w.trace (w.since w') = true ↔ ∃ e, o = Outcome.error e := by
  obtain ⟨es, ht, hr⟩ := h
  rw [since_of_trace ht, hr]
  cases o <;> simp [Outcome.isError]

theorem refused_of_accepting (env : Env)
    (h : ∀ (tr : List Entry) (stmt : Stmt), ∃ id, env.exec tr stmt = Except.ok (id, none))
    (es : List Entry) : ∀ before : List Entry, refused env before es = false := by
  induction es with
  | nil => intro before; rfl
  | cons x xs ih =>
    intro before
    simp only [refused, ih, Bool.or_false]
    cases hx : x.ev with
    | exec stmt b =>
      obtain ⟨id, hid⟩ := h before stmt
      simp only [hid]
      rfl
    | _ => rfl

/-! ## The claims -/

theorem scanRows_result {α : Type} (env env' : Env) (msg : String)
    (rows : List (Except String α)) :
    ∀ (acc : List α) (w w' : World),
      (scanRows env' msg rows acc w').1 = (scanRows env msg rows acc w).1 := by
  induction rows with
  | nil => intro acc w w'; rfl
  | cons row rest ih =>
    intro acc w w'
    cases row with
    | error e => rfl
    | ok a => simp only [scanRows]; exact ih _ _ _

theorem GetReminders_result (env env' : Env) (w : World)
    (h : env'.queryReminders = env.queryReminders) :
    (GetReminders env' w).1 = (GetReminders env w).1 := by
  unfold GetReminders
  rw [h]
  cases env.queryReminders w.trace with
  | error e => rfl
  | ok rows => exact scanRows_result _ _ _ _ _ _ _

/-- C1: `Init` returns an error exactly when the load `GetReminders` fails.  When
the load succeeds it returns `nil` and has started one goroutine per loaded
reminder; what it returns depends on the answer to the `reminders` query only,
not on what session lookups, notifications or status updates will answer. -/
theorem Init_fails_iff_load_fails (env : Env) (url : String) (w : World) :
    ((Init env url w).err ≠ none ↔ (GetReminders env w).1.isOk = false) ∧
    (∀ e, (GetReminders env w).1 = Except.error e →
      (Init env url w).err = some ("failed to load reminders: " ++ e) ∧
        (Init env url w).tasks = []) ∧
    (∀ reminders, (GetReminders env w).1 = Except.ok reminders →
      (Init env url w).err = none ∧ (Init env url w).launched = reminders ∧
        (Init env url w).tasks = reminders.map (dispatchTask env url)) ∧
    (∀ env' : Env, env'.queryReminders = env.queryReminders →
      (Init env' url w).err = (Init env url w).err) := by
  have key : ∀ env0 : Env, (Init env0 url w).err =
      match (GetReminders env0 w).1 with
      | Except.error e => some ("failed to load reminders: " ++ e)
      | Except.ok _ => none := by
    intro env0
    unfold Init
    rcases hL : GetReminders env0 w with ⟨res, w1⟩
    cases res <;> rfl
  refine ⟨?_, ?_, ?_, ?_⟩
  · rw [key]
    cases (GetReminders env w).1 <;> simp [Except.isOk, Except.toBool]
  · intro e he
    unfold Init
    rcases hL : GetReminders env w with ⟨res, w1⟩
    rw [hL] at he
    simp only at he
    subst he
    exact ⟨rfl, rfl⟩
  · intro reminders he
    unfold Init
    rcases hL : GetReminders env w with ⟨res, w1⟩
    rw [hL] at he
    simp only at he
    subst he
    exact ⟨rfl, rfl, rfl⟩
  · intro env' h
    rw [key, key, GetReminders_result env env' w h]

/-- C1, at concrete worlds: a failing load makes `Init` fail, a successful one does not. -/
theorem Init_fails_iff_load_fails_witness :
    (Init envLoadFails "u" world0).err ≠ none ∧ (Init envOk "u" world0).err = none :=
  ⟨(Init_fails_iff_load_fails envLoadFails "u" world0).1.mpr (by decide),
    ((Init_fails_iff_load_fails envOk "u" world0).2.2.1 [] rfl).1⟩

theorem wrap64_eq_iff (x : Int) :
    GoTime.wrap64 x = x ↔ -9223372036854775808 ≤ x ∧ x ≤ 9223372036854775807 := by
  unfold GoTime.wrap64
  omega

theorem minutes_fit_iff (m : Int) :
    GoTime.mulDuration (-GoTime.Minute) m = -(m * GoTime.Minute) ↔
      -153722867 ≤ m ∧ m ≤ 153722867 := by
  have h1 : -(m * GoTime.Minute) = -GoTime.Minute * m := by ring
  rw [h1, GoTime.mulDuration, wrap64_eq_iff]
  simp only [GoTime.Minute]
  omega

/-- C2, as the code has it: for a pending reminder with an offset `m` and no
valid time whose session lookup succeeds, the instant the task compares with
`now` and sleeps until is the session's timestamp plus the 64-bit product
`-time.Minute * m`.  That product is `-m` minutes exactly when
`-153722867 ≤ m ≤ 153722867`, so in that range the instant is the timestamp
minus `m` minutes, unclamped, whether `m` is negative or positive. -/
theorem relative_fire_instant (env : Env) (url : String) (r : Reminder) (w w1 : World)
    (m : Int) (session : Session) (hS : r.Status ≠ Complete) (hV : r.Time.Valid = false)
    (hM : r.MinutesPrior = some m)
    (hG : GetSession env r.SessionID w = (Except.ok session, w1)) :
    dispatchTask env url r w =
      (if GoTime.Add session.Timestamp (GoTime.mulDuration (-GoTime.Minute) m) < w.clock then
        remindAndLog env url r w1
      else
        remindAndLog env url r (GoTime.Sleep env
          (GoTime.Sub (GoTime.Add session.Timestamp (GoTime.mulDuration (-GoTime.Minute) m))
            w.clock) w1)) ∧
    (GoTime.mulDuration (-GoTime.Minute) m = -(m * GoTime.Minute) ↔
      -153722867 ≤ m ∧ m ≤ 153722867) ∧
    (-153722867 ≤ m → m ≤ 153722867 →
      GoTime.Add session.Timestamp (GoTime.mulDuration (-GoTime.Minute) m) =
        session.Timestamp - m * GoTime.Minute) := by
  refine ⟨?_, minutes_fit_iff m, ?_⟩
  · unfold dispatchTask
    have hS' : (r.Status != Complete) = true := by simpa using hS
    simp only [hS', if_true, hV, Bool.false_eq_true, if_false, hM, hG, GoTime.After,
      decide_eq_true_eq]
  · intro h1 h2
    rw [(minutes_fit_iff m).mpr ⟨h1, h2⟩, GoTime.Add]
    ring

/-- C2, at a concrete world: the session starts at instant 0, the offset is 30
minutes and `now` is 1000, so the task fires at once. -/
theorem relative_fire_instant_witness :
    dispatchTask envOk "u" (relativeReminder 30) world0 =
      remindAndLog envOk "u" (relativeReminder 30) (GetSession envOk 10 world0).2 :=
  (relative_fire_instant envOk "u" (relativeReminder 30) world0 (GetSession envOk 10 world0).2 30
    sampleSession (by decide) rfl rfl rfl).1

/-- C2 fails as stated: with the offset 153722868 minutes, a session starting at
instant 0 and `now` = 1000, the timestamp minus the offset lies in the past, yet
the instant the task waits for is not that one: the task sleeps for
9223371993709550616 nanoseconds before it notifies. -/
theorem relative_fire_instant_wraps :
    sampleSession.Timestamp - 153722868 * GoTime.Minute < world0.clock ∧
    GoTime.Add sampleSession.Timestamp (GoTime.mulDuration (-GoTime.Minute) 153722868) ≠
      sampleSession.Timestamp - 153722868 * GoTime.Minute ∧
    calls Event.isSleep
        (world0.since (dispatchTask envOk "u" (relativeReminder 153722868) world0).2) =
      [{ time := 1000, ev := Event.sleep 9223371993709550616 }] := by
  refine ⟨by decide, by decide, by decide⟩

theorem sub_eq_min (t u : Int) (h : u ≤ t) :
    GoTime.Sub t u = min (t - u) GoTime.maxDuration := by
  unfold GoTime.Sub GoTime.minDuration
  simp only [GoTime.maxDuration]
  split_ifs <;> omega

/-- C3, as the code has it: a pending reminder with a valid time `t` is fired
without any sleep when `t` is before `now`; otherwise the task first sleeps for
`t.Sub(now)`, which is the non-negative `t - now` capped at the largest
`time.Duration`; and when `t - now` is at most that largest duration, every
notification of the task is issued at `t` or later. -/
theorem absolute_wait (env : Env) (url : String) (r : Reminder) (w : World)
    (hS : r.Status ≠ Complete) (hV : r.Time.Valid = true) :
    (r.Time.Time < w.clock →
      dispatchTask env url r w = remindAndLog env url r w ∧
        calls Event.isSleep (w.since (dispatchTask env url r w).2) = []) ∧
    (w.clock ≤ r.Time.Time →
      dispatchTask env url r w = remindAndLog env url r
          (GoTime.Sleep env (min (r.Time.Time - w.clock) GoTime.maxDuration) w) ∧
        calls Event.isSleep (w.since (dispatchTask env url r w).2) =
          [{ time := w.clock,
             ev := Event.sleep (min (r.Time.Time - w.clock) GoTime.maxDuration) }] ∧
        0 ≤ min (r.Time.Time - w.clock) GoTime.maxDuration) ∧
    (w.clock ≤ r.Time.Time → r.Time.Time - w.clock ≤ GoTime.maxDuration →
      ∀ x ∈ calls Event.isPost (w.since (dispatchTask env url r w).2), r.Time.Time ≤ x.time) := by
  have hS' : (r.Status != Complete) = true := by simpa using hS
  have hpast : r.Time.Time < w.clock → dispatchTask env url r w = remindAndLog env url r w := by
    intro h
    unfold dispatchTask
    simp only [hS', if_true, hV, GoTime.After, decide_eq_true_eq, h]
  have hfuture : w.clock ≤ r.Time.Time → dispatchTask env url r w = remindAndLog env url r
      (GoTime.Sleep env (min (r.Time.Time - w.clock) GoTime.maxDuration) w) := by
    intro h
    unfold dispatchTask
    have h' : ¬ r.Time.Time < w.clock := not_lt.mpr h
    simp only [hS', if_true, hV, GoTime.After, decide_eq_true_eq, h', if_false, sub_eq_min _ _ h]
  have hfacts : w.clock ≤ r.Time.Time →
      FiringFacts
        (calls Event.isSleep
          [{ time := w.clock,
             ev := Event.sleep (min (r.Time.Time - w.clock) GoTime.maxDuration) }] ++ []) r w
        (r.Remind env url (GoTime.Sleep env (min (r.Time.Time - w.clock) GoTime.maxDuration) w)).1.isOk
        (dispatchTask env url r w).1 (dispatchTask env url r w).2 := by
    intro h
    rw [hfuture h]
    refine FiringFacts.after _ (sleep_trace env _ w) (sleep_clock env _ w).2 ?_
      (remindAndLog_facts env url r _)
    intro x hx
    simp only [List.mem_singleton] at hx
    subst hx
    simp [Event.isPost, Event.isWrite, Event.isFailedRead]
  refine ⟨fun h => ⟨hpast h, ?_⟩, fun h => ⟨hfuture h, ?_, ?_⟩, ?_⟩
  · rw [hpast h]
    exact (remindAndLog_facts env url r w).sleep
  · simpa [calls_single, Event.isSleep] using (hfacts h).sleep
  · exact le_min (by omega) (by decide)
  · intro h hfit x hx
    rw [hfuture h] at hx
    have hmin : min (r.Time.Time - w.clock) GoTime.maxDuration = r.Time.Time - w.clock :=
      min_eq_left hfit
    rw [hmin] at hx
    have hf := remindAndLog_facts env url r (GoTime.Sleep env (r.Time.Time - w.clock) w)
    have hs : w.since (remindAndLog env url r (GoTime.Sleep env (r.Time.Time - w.clock) w)).2 =
        [{ time := w.clock, ev := Event.sleep (r.Time.Time - w.clock) }] ++
          (GoTime.Sleep env (r.Time.Time - w.clock) w).since
            (remindAndLog env url r (GoTime.Sleep env (r.Time.Time - w.clock) w)).2 :=
      since_of_trace (by rw [hf.trace, sleep_trace, List.append_assoc])
    rw [hs, calls_append, calls_single] at hx
    simp only [Event.isSleep, Event.isPost, Bool.false_eq_true, if_false, List.nil_append] at hx
    have hx' := List.mem_of_mem_filter hx
    have h1 := hf.times x hx'
    have h2 := (sleep_clock env (r.Time.Time - w.clock) w).1
    omega

/-- C3, at a concrete world: `now` is 1000 and the reminder is due at 1500, so
the task sleeps 500 nanoseconds. -/
theorem absolute_wait_witness :
    calls Event.isSleep (world0.since (dispatchTask envOk "u" (absoluteReminder 1500) world0).2) =
      [{ time := 1000, ev := Event.sleep 500 }] :=
  ((absolute_wait envOk "u" (absoluteReminder 1500) world0 (by decide) rfl).2.1 (by decide)).2.1

/-- C3 fails as stated: with `now` = 1000 and a reminder due at
9223372036854777000, further away than the largest `time.Duration`, the task
sleeps for that largest duration only, not for `t - now`, and a sleep that lasts
no longer than asked lets it notify at 9223372036854776807, before `t`. -/
theorem absolute_wait_is_capped :
    world0.clock ≤ (absoluteReminder 9223372036854777000).Time.Time ∧
    calls Event.isSleep
        (world0.since (dispatchTask envOk "u" (absoluteReminder 9223372036854777000) world0).2) =
      [{ time := 1000, ev := Event.sleep 9223372036854775807 }] ∧
    (9223372036854775807 : Int) ≠ 9223372036854777000 - world0.clock ∧
    (calls Event.isPost
        (world0.since (dispatchTask envOk "u" (absoluteReminder 9223372036854777000) world0).2)).map
      (fun x => x.time) = [9223372036854776807] ∧
    (9223372036854776807 : Int) < (absoluteReminder 9223372036854777000).Time.Time := by
  refine ⟨by decide, by decide, by decide, by decide, by decide⟩

theorem mem_zip_map {α β : Type} (f : α → β) (a : α) (b : β) :
    ∀ l : List α, (a, b) ∈ List.zip l (l.map f) → b = f a := by
  intro l
  induction l with
  | nil => intro h; simp at h
  | cons x xs ih =>
    intro h
    simp only [List.map_cons, List.zip_cons_cons, List.mem_cons, Prod.mk.injEq] at h
    rcases h with ⟨h1, h2⟩ | h
    · rw [h1, h2]
    · exact ih h

/-- C6: a reminder whose status is `Complete` when its task starts makes the task
return at once: the world is as before (no session lookup, no sleep, no
notification, no store write), whatever its time and offset are; so each
goroutine that `Init` starts for a reminder loaded as `Complete` does nothing. -/
theorem complete_reminder_is_skipped (env : Env) (url : String) (r : Reminder) (w : World)
    (h : r.Status = Complete) :
    dispatchTask env url r w = (r, w) ∧
    w.since (dispatchTask env url r w).2 = [] ∧
    (∀ (w0 : World) (task : World → Reminder × World),
      (r, task) ∈ List.zip (Init env url w0).launched (Init env url w0).tasks →
        ∀ w' : World, task w' = (r, w') ∧ occurs Event.isPost (w'.since (task w').2) = false) := by
  have h1 : ∀ w' : World, dispatchTask env url r w' = (r, w') := by
    intro w'
    unfold dispatchTask
    simp [h]
  have h2 : ∀ w' : World, w'.since w' = [] := fun w' => by simp [World.since]
  refine ⟨h1 w, by rw [h1 w]; exact h2 w, ?_⟩
  intro w0 task hmem w'
  have htasks : (Init env url w0).tasks = (Init env url w0).launched.map (dispatchTask env url) := by
    unfold Init
    rcases GetReminders env w0 with ⟨res, w1⟩
    cases res <;> rfl
  rw [htasks] at hmem
  rw [mem_zip_map _ _ _ _ hmem, h1 w', h2 w']
  exact ⟨rfl, rfl⟩

/-- C6, at a concrete world: a reminder loaded as `Complete` leaves the world alone. -/
theorem complete_reminder_is_skipped_witness :
    dispatchTask envOk "u" { absoluteReminder 500 with Status := Complete } world0 =
      ({ absoluteReminder 500 with Status := Complete }, world0) :=
  (complete_reminder_is_skipped envOk "u" { absoluteReminder 500 with Status := Complete }
    world0 rfl).1

/-- C4: for a reminder with a valid time and no offset, whenever the session
lookup and the notification in `Remind` succeed, `Remind` issues exactly one
store write, the update of the status of the reminder's own id to `Complete`,
and leaves the reminder with the status `Complete`; the same holds for the whole
dispatch task, at every clock value, so both when the time is past and when the
task slept first. -/
theorem absolute_success_marks_complete (env : Env) (url : String) (r : Reminder) (w : World)
    (hV : r.Time.Valid = true) (hM : r.MinutesPrior = none) :
    ((∃ session w1 buf, GetSession env r.SessionID w = (Except.ok session, w1) ∧
        env.encode session = Except.ok buf ∧
        env.post w1.trace (url ++ "/notify") buf = Except.ok ()) →
      ∃ t b, calls Event.isWrite (w.since (r.Remind env url w).2.2) =
          [{ time := t, ev := Event.exec (Stmt.updateReminderStatus Complete r.ID) b }] ∧
        (r.Remind env url w).2.1 = { r with Status := Complete }) ∧
    (occurs Event.isOkPost (w.since (dispatchTask env url r w).2) = true →
      ∃ t b, calls Event.isWrite (w.since (dispatchTask env url r w).2) =
          [{ time := t, ev := Event.exec (Stmt.updateReminderStatus Complete r.ID) b }] ∧
        (dispatchTask env url r w).1 = { r with Status := Complete }) := by
  constructor
  · intro h
    obtain ⟨t, b, h1, h2, -⟩ :=
      (Remind_facts env url r w).okPost ((Remind_post_outcome env url r w).1.mpr h) hV hM
    exact ⟨t, b, h1, h2⟩
  · intro h
    obtain ⟨sl, ok, hf⟩ := dispatchTask_facts env url r w
    obtain ⟨t, b, h1, h2, -⟩ := hf.okPost h hV hM
    exact ⟨t, b, h1, h2⟩

/-- C4, at a concrete world: the reminder due at 500 is fired at 1000 and is
marked complete by one update. -/
theorem absolute_success_marks_complete_witness :
    ∃ t b, calls Event.isWrite
          (world0.since (dispatchTask envOk "u" (absoluteReminder 500) world0).2) =
        [{ time := t, ev := Event.exec
            (Stmt.updateReminderStatus Complete (absoluteReminder 500).ID) b }] ∧
      (dispatchTask envOk "u" (absoluteReminder 500) world0).1 =
        { absoluteReminder 500 with Status := Complete } :=
  (absolute_success_marks_complete envOk "u" (absoluteReminder 500) world0 rfl rfl).2 (by decide)

/-- C7: when the notification inside `Remind` fails, `Remind` returns the error
"failed to notify: .." with the reminder unchanged and without any store write;
a dispatch task in which a notification failed has made no store write, exactly
one notification attempt, and left its reminder unchanged; and no dispatch task
ever makes more than one notification attempt. -/
theorem failed_notification_writes_nothing (env : Env) (url : String) (r : Reminder)
    (w : World) :
    (∀ session w1 buf e, GetSession env r.SessionID w = (Except.ok session, w1) →
      env.encode session = Except.ok buf →
      env.post w1.trace (url ++ "/notify") buf = Except.error e →
      r.Remind env url w = (Except.error ("failed to notify: " ++ e), r,
          w1.emit env (Event.post (url ++ "/notify") buf false)) ∧
        calls Event.isWrite (w.since (r.Remind env url w).2.2) = []) ∧
    (occurs Event.isFailedPost (w.since (dispatchTask env url r w).2) = true →
      calls Event.isWrite (w.since (dispatchTask env url r w).2) = [] ∧
        (calls Event.isPost (w.since (dispatchTask env url r w).2)).length = 1 ∧
        (dispatchTask env url r w).1 = r) ∧
    (calls Event.isPost (w.since (dispatchTask env url r w).2)).length ≤ 1 := by
  refine ⟨?_, ?_, ?_⟩
  · intro session w1 buf e hG hE hP
    refine ⟨by simp only [Reminder.Remind, hG, hE, hP], ?_⟩
    exact ((Remind_facts env url r w).failedPost
      ((Remind_post_outcome env url r w).2.mpr ⟨session, w1, buf, e, hG, hE, hP⟩)).1
  · intro h
    obtain ⟨sl, ok, hf⟩ := dispatchTask_facts env url r w
    obtain ⟨h1, h2, h3, -⟩ := hf.failedPost h
    exact ⟨h1, h2, h3⟩
  · obtain ⟨sl, ok, hf⟩ := dispatchTask_facts env url r w
    exact hf.posts

/-- C7, at a concrete world: the endpoint refuses the notification of the
reminder due at 500; nothing is written and the reminder stays pending. -/
theorem failed_notification_writes_nothing_witness :
    calls Event.isWrite
        (world0.since (dispatchTask envPostFails "u" (absoluteReminder 500) world0).2) = [] ∧
      (calls Event.isPost
        (world0.since (dispatchTask envPostFails "u" (absoluteReminder 500) world0).2)).length = 1 ∧
      (dispatchTask envPostFails "u" (absoluteReminder 500) world0).1 = absoluteReminder 500 :=
  (failed_notification_writes_nothing envPostFails "u" (absoluteReminder 500) world0).2.1
    (by decide)

/-- C8: `GetSession` fails exactly when one of its store reads fails.  If it
fails while the task resolves the fire time of a pending offset reminder, the
task logs and returns; if it fails at the start of `Remind`, `Remind` returns the
error at once; and a dispatch task in which a store read failed has made no
notification and no store write, and left its reminder unchanged. -/
theorem failed_lookup_ends_task (env : Env) (url : String) (r : Reminder) (w : World) :
    (∀ id, (GetSession env id w).1.isOk = false ↔
      occurs Event.isFailedRead (w.since (GetSession env id w).2) = true) ∧
    (∀ e w1 m, r.Status ≠ Complete → r.Time.Valid = false → r.MinutesPrior = some m →
      GetSession env r.SessionID w = (Except.error e, w1) →
      dispatchTask env url r w =
        (r, w1.emit env (Event.log ("failed to get session: " ++ e)))) ∧
    (∀ e w1, GetSession env r.SessionID w = (Except.error e, w1) →
      r.Remind env url w = (Except.error ("failed to get session: " ++ e), r, w1) ∧
        calls Event.isPost (w.since w1) = [] ∧ calls Event.isWrite (w.since w1) = []) ∧
    (occurs Event.isFailedRead (w.since (dispatchTask env url r w).2) = true →
      calls Event.isPost (w.since (dispatchTask env url r w).2) = [] ∧
        calls Event.isWrite (w.since (dispatchTask env url r w).2) = [] ∧
        (dispatchTask env url r w).1 = r) := by
  refine ⟨?_, ?_, ?_, ?_⟩
  · intro id
    obtain ⟨rs, htr, -, -, hfail⟩ := GetSession_run env id w
    rw [since_of_trace htr, hfail]
    cases (GetSession env id w).1.isOk <;> simp
  · intro e w1 m hS hV hM hG
    unfold dispatchTask
    have hS' : (r.Status != Complete) = true := by simpa using hS
    simp only [hS', if_true, hV, Bool.false_eq_true, if_false, hM, hG]
  · intro e w1 hG
    have hR : r.Remind env url w = (Except.error ("failed to get session: " ++ e), r, w1) := by
      simp only [Reminder.Remind, hG]
    have hrun := GetSession_run env r.SessionID w
    rw [hG] at hrun
    obtain ⟨rs, htr, -, hreads, -⟩ := hrun
    simp only at htr
    rw [since_of_trace htr]
    exact ⟨hR,
      calls_of_reads (by intro e; cases e <;> simp [Event.isRead, Event.isPost]) hreads,
      calls_of_reads (by intro e; cases e <;> simp [Event.isRead, Event.isWrite]) hreads⟩
  · intro h
    obtain ⟨sl, ok, hf⟩ := dispatchTask_facts env url r w
    obtain ⟨h1, h2, h3, -⟩ := hf.failedRead h
    exact ⟨h1, h2, h3⟩

/-- C8, at a concrete world: the `sessions` table cannot be read while the task
resolves the fire time of an offset reminder; nothing is notified or written. -/
theorem failed_lookup_ends_task_witness :
    calls Event.isPost
        (world0.since (dispatchTask envLookupFails "u" (relativeReminder 30) world0).2) = [] ∧
      calls Event.isWrite
        (world0.since (dispatchTask envLookupFails "u" (relativeReminder 30) world0).2) = [] ∧
      (dispatchTask envLookupFails "u" (relativeReminder 30) world0).1 = relativeReminder 30 :=
  (failed_lookup_ends_task envLookupFails "u" (relativeReminder 30) world0).2.2.2 (by decide)

/-- C9: for a reminder with an offset, `Remind` and the dispatch task issue no
store write and leave the reminder, its status included, as it is, whether the
notification succeeds or fails; and every store write that `Remind` or a
dispatch task issues, for any reminder, is the update of that reminder's status
to `Complete`, issued after a successful notification of a reminder that has a
valid time and no offset. -/
theorem offset_reminder_never_completed (env : Env) (url : String) (r : Reminder) (w : World)
    (hM : r.MinutesPrior ≠ none) :
    (calls Event.isWrite (w.since (r.Remind env url w).2.2) = [] ∧
      (r.Remind env url w).2.1 = r) ∧
    (calls Event.isWrite (w.since (dispatchTask env url r w).2) = [] ∧
      (dispatchTask env url r w).1 = r) ∧
    (∀ (r0 : Reminder) (w0 : World),
      ∀ x ∈ calls Event.isWrite (w0.since (r0.Remind env url w0).2.2),
        (∃ b, x.ev = Event.exec (Stmt.updateReminderStatus Complete r0.ID) b) ∧
          r0.Time.Valid = true ∧ r0.MinutesPrior = none ∧
          occurs Event.isOkPost (w0.since (r0.Remind env url w0).2.2) = true) ∧
    (∀ (r0 : Reminder) (w0 : World),
      ∀ x ∈ calls Event.isWrite (w0.since (dispatchTask env url r0 w0).2),
        (∃ b, x.ev = Event.exec (Stmt.updateReminderStatus Complete r0.ID) b) ∧
          r0.Time.Valid = true ∧ r0.MinutesPrior = none ∧
          occurs Event.isOkPost (w0.since (dispatchTask env url r0 w0).2) = true) := by
  have key : ∀ {sl : List Entry} {ok : Bool} {r' : Reminder} {w' : World},
      FiringFacts sl r w ok r' w' → calls Event.isWrite (w.since w') = [] ∧ r' = r := by
    intro sl ok r' w' hf
    have hnil : calls Event.isWrite (w.since w') = [] := by
      apply List.eq_nil_iff_forall_not_mem.mpr
      intro x hx
      exact hM (hf.writes x hx).2.2.1
    exact ⟨hnil, hf.noWrite hnil⟩
  refine ⟨key (Remind_facts env url r w), ?_, ?_, ?_⟩
  · obtain ⟨sl, ok, hf⟩ := dispatchTask_facts env url r w
    exact key hf
  · intro r0 w0
    exact (Remind_facts env url r0 w0).writes
  · intro r0 w0
    obtain ⟨sl, ok, hf⟩ := dispatchTask_facts env url r0 w0
    exact hf.writes

/-- C9, at a concrete world: the offset reminder is notified, nothing is
written, and it stays pending. -/
theorem offset_reminder_never_completed_witness :
    calls Event.isWrite
        (world0.since (dispatchTask envOk "u" (relativeReminder 30) world0).2) = [] ∧
      (dispatchTask envOk "u" (relativeReminder 30) world0).1 = relativeReminder 30 :=
  (offset_reminder_never_completed envOk "u" (relativeReminder 30) world0 (by decide)).2.1

/-- C5, as the code has it: for a reminder with both a valid time and an offset,
the dispatch task makes the calls that it makes for the same reminder with the
offset cleared (the same sleep until the time, the same session lookups, the same
notification) up to the store write, which it does not make: it writes nothing
and leaves the reminder, its status included, as it is. -/
theorem time_wins_offset_blocks_update (env : Env) (url : String) (r : Reminder) (w : World)
    (m : Int) (hV : r.Time.Valid = true) (hM : r.MinutesPrior = some m) :
    w.since (dispatchTask env url r w).2 =
        (w.since (dispatchTask env url { r with MinutesPrior := none } w).2).takeWhile
          (fun x => !x.ev.isWrite) ∧
    calls Event.isSleep (w.since (dispatchTask env url r w).2) =
      calls Event.isSleep (w.since (dispatchTask env url { r with MinutesPrior := none } w).2) ∧
    calls Event.isPost (w.since (dispatchTask env url r w).2) =
      calls Event.isPost (w.since (dispatchTask env url { r with MinutesPrior := none } w).2) ∧
    calls Event.isWrite (w.since (dispatchTask env url r w).2) = [] ∧
    (dispatchTask env url r w).1 = r := by
  have hlast : calls Event.isWrite (w.since (dispatchTask env url r w).2) = [] ∧
      (dispatchTask env url r w).1 = r := by
    obtain ⟨sl, ok, hf⟩ := dispatchTask_facts env url r w
    have hnil : calls Event.isWrite (w.since (dispatchTask env url r w).2) = [] := by
      apply List.eq_nil_iff_forall_not_mem.mpr
      intro x hx
      have := (hf.writes x hx).2.2.1
      rw [hM] at this
      exact Option.noConfusion this
    exact ⟨hnil, hf.noWrite hnil⟩
  by_cases hS : r.Status = Complete
  · have h1 : ∀ r0 : Reminder, r0.Status = Complete → dispatchTask env url r0 w = (r0, w) := by
      intro r0 h0
      unfold dispatchTask
      simp [h0]
    rw [h1 r hS, h1 { r with MinutesPrior := none } hS]
    simp [World.since, calls]
  · rw [dispatchTask_absolute env url r w hS hV,
      dispatchTask_absolute env url { r with MinutesPrior := none } w hS hV] at *
    by_cases hA : r.Time.Time < w.clock
    · simp only [hA, if_true] at *
      exact ⟨(remindAndLog_offset env url r w m hV hM).1,
        by rw [(remindAndLog_facts env url r w).sleep,
          (remindAndLog_facts env url { r with MinutesPrior := none } w).sleep],
        (remindAndLog_offset env url r w m hV hM).2, hlast⟩
    · simp only [hA, if_false] at *
      have h1 := remindAndLog_facts env url r (GoTime.Sleep env (GoTime.Sub r.Time.Time w.clock) w)
      have h2 := remindAndLog_facts env url { r with MinutesPrior := none }
        (GoTime.Sleep env (GoTime.Sub r.Time.Time w.clock) w)
      have h3 := remindAndLog_offset env url r
        (GoTime.Sleep env (GoTime.Sub r.Time.Time w.clock) w) m hV hM
      have e1 : (Event.sleep (GoTime.Sub r.Time.Time w.clock)).isWrite = false := rfl
      have e2 : (Event.sleep (GoTime.Sub r.Time.Time w.clock)).isPost = false := rfl
      have e3 : (Event.sleep (GoTime.Sub r.Time.Time w.clock)).isSleep = true := rfl
      rw [since_of_trace (w := w) (by rw [h1.trace, sleep_trace, List.append_assoc]),
        since_of_trace (w := w) (by rw [h2.trace, sleep_trace, List.append_assoc])] at *
      refine ⟨?_, ?_, ?_, hlast⟩
      · simp only [List.singleton_append, List.takeWhile_cons, e1, Bool.not_false, if_true]
        rw [← h3.1]
      · simp only [List.singleton_append, calls_cons, e3, if_true, h1.sleep, h2.sleep]
      · simp only [List.singleton_append, calls_cons, e2, Bool.false_eq_true, if_false]
        exact h3.2

/-- C5, at a concrete world: the reminder with the time 500 and the offset 5 is
fired at 1000 as without the offset, and stays pending. -/
theorem time_wins_offset_blocks_update_witness :
    calls Event.isWrite (world0.since (dispatchTask envOk "u" (bothReminder 500 5) world0).2) = [] ∧
      (dispatchTask envOk "u" (bothReminder 500 5) world0).1 = bothReminder 500 5 :=
  (time_wins_offset_blocks_update envOk "u" (bothReminder 500 5) world0 5 rfl rfl).2.2.2

/-- C5 fails as stated: after a successful notification the reminder with the
time 500 and the offset 5 is still pending and nothing was written, while the
same reminder with the offset cleared is marked complete by an update. -/
theorem offset_blocks_completion :
    (dispatchTask envOk "u" (bothReminder 500 5) world0).1.Status = Pending ∧
    calls Event.isWrite (world0.since (dispatchTask envOk "u" (bothReminder 500 5) world0).2) = [] ∧
    occurs Event.isOkPost
      (world0.since (dispatchTask envOk "u" (bothReminder 500 5) world0).2) = true ∧
    (dispatchTask envOk "u" { bothReminder 500 5 with MinutesPrior := none } world0).1.Status =
      Complete ∧
    calls Event.isWrite
        (world0.since
          (dispatchTask envOk "u" { bothReminder 500 5 with MinutesPrior := none } world0).2) =
      [{ time := 1000, ev := Event.exec (Stmt.updateReminderStatus Complete 3) true }] := by
  refine ⟨by decide, by decide, by decide, by decide, by decide⟩

/-- C10, as the code has it: `Reminder.Save` issues its insert exactly when the
offset is present; without one it stops with a nil pointer dereference before
any store call.  `Session.Save` returns an error exactly when the store refuses
one of the writes it makes (`db.Exec` fails, or `LastInsertId` fails where the
code asks for it).  So `Session.Save` of a session that has a reminder without
offset never returns `nil`: it stops with the nil pointer dereference exactly
when the store refuses none of its writes, in particular with a store that
accepts every write, and the session row has then already been inserted;
otherwise it returns the error of the refused write.  `Session.Save` stops that
way for no other reason. -/
theorem save_faults_without_offset (env : Env) :
    (∀ (r : Reminder) (w : World), r.MinutesPrior = none →
      (Reminder.Save env r w).1 = Outcome.fault ∧ (Reminder.Save env r w).2.2 = w) ∧
    (∀ (r : Reminder) (w : World) (m : Int), r.MinutesPrior = some m →
      (Reminder.Save env r w).1 ≠ Outcome.fault ∧
        ∃ b, (Reminder.Save env r w).2.2 = w.emit env (Event.exec (Stmt.insertReminder
          r.SessionID r.Time m (if r.Status == "" then Pending else r.Status)) b)) ∧
    (∀ (s : Session) (w : World), (∃ r ∈ s.Reminders, r.MinutesPrior = none) →
      (Session.Save env s w).1 ≠ Outcome.ok ∧
        ((Session.Save env s w).1 = Outcome.fault →
          occurs Event.isSessionInsert (w.since (Session.Save env s w).2.2) = true)) ∧
    (∀ (s : Session) (w : World), (Session.Save env s w).1 = Outcome.fault →
      ∃ r ∈ s.Reminders, r.MinutesPrior = none) ∧
    (∀ (s : Session) (w : World),
      refused env w.trace (w.since (Session.Save env s w).2.2) = true ↔
        ∃ e, (Session.Save env s w).1 = Outcome.error e) ∧
    (∀ (s : Session) (w : World), (∃ r ∈ s.Reminders, r.MinutesPrior = none) →
      ((Session.Save env s w).1 = Outcome.fault ↔
        refused env w.trace (w.since (Session.Save env s w).2.2) = false)) ∧
    ((∀ (tr : List Entry) (stmt : Stmt), ∃ id, env.exec tr stmt = Except.ok (id, none)) →
      ∀ (s : Session) (w : World), (∃ r ∈ s.Reminders, r.MinutesPrior = none) →
        (Session.Save env s w).1 = Outcome.fault ∧
          occurs Event.isSessionInsert (w.since (Session.Save env s w).2.2) = true) := by
  have hiff : ∀ (s : Session) (w : World),
      refused env w.trace (w.since (Session.Save env s w).2.2) = true ↔
        ∃ e, (Session.Save env s w).1 = Outcome.error e :=
    fun s w => (Session_Save_refused env s w).refused_iff
  have hfault : ∀ (s : Session) (w : World), (∃ r ∈ s.Reminders, r.MinutesPrior = none) →
      ((Session.Save env s w).1 = Outcome.fault ↔
        refused env w.trace (w.since (Session.Save env s w).2.2) = false) := by
    intro s w h
    have hne := (Session_Save_run env s w).1 h
    have hi := hiff s w
    cases ho : (Session.Save env s w).1 with
    | ok => exact absurd ho hne
    | fault =>
      rw [ho] at hi
      simp only [true_iff]
      cases hr : refused env w.trace (w.since (Session.Save env s w).2.2) with
      | false => rfl
      | true =>
        obtain ⟨e, he⟩ := hi.mp hr
        exact Outcome.noConfusion he
    | error e =>
      rw [ho] at hi
      have hr := hi.mpr ⟨e, rfl⟩
      simp [hr]
  refine ⟨fun r w => (Reminder_Save_run env r w).1, fun r w => (Reminder_Save_run env r w).2,
    fun s w h => ⟨(Session_Save_run env s w).1 h, fun hf => ((Session_Save_run env s w).2 hf).2⟩,
    fun s w hf => ((Session_Save_run env s w).2 hf).1, hiff, hfault, ?_⟩
  intro hstore s w h
  have hf : (Session.Save env s w).1 = Outcome.fault :=
    (hfault s w h).mpr (refused_of_accepting env hstore _ _)
  exact ⟨hf, ((Session_Save_run env s w).2 hf).2⟩

/-- C10, at a concrete world: the store accepts every write, and saving the
session whose reminder has no offset stops after the session row was inserted. -/
theorem save_faults_without_offset_witness :
    (Session.Save envOk faultySession world0).1 = Outcome.fault ∧
      occurs Event.isSessionInsert (world0.since (Session.Save envOk faultySession world0).2.2) =
        true :=
  (save_faults_without_offset envOk).2.2.2.2.2.2 (fun _ _ => ⟨1, rfl⟩) faultySession world0
    ⟨_, List.mem_singleton.mpr rfl, rfl⟩

/-- C10 fails as stated: the session has a reminder with a valid time and no
offset.  When the store rejects the insert of the session row, `Session.Save`
returns that error after the frequency row was inserted; when it rejects every
write, `Session.Save` returns the error of the first insert.  In both worlds it
does not fault, and no session row was inserted. -/
theorem save_returns_error_before_fault :
    (∃ r ∈ faultySession.Reminders, r.Time.Valid = true ∧ r.MinutesPrior = none) ∧
    (Session.Save envExecFails faultySession world0).1 =
      Outcome.error "failed to save frequency: failed to save frequency: bad connection" ∧
    (Session.Save envExecFails faultySession world0).1 ≠ Outcome.fault ∧
    occurs Event.isSessionInsert
      (world0.since (Session.Save envExecFails faultySession world0).2.2) = false ∧
    (Session.Save envSessionInsertFails faultySession world0).1 =
      Outcome.error "failed to save session: duplicate entry" ∧
    (Session.Save envSessionInsertFails faultySession world0).1 ≠ Outcome.fault ∧
    occurs Event.isSessionInsert
      (world0.since (Session.Save envSessionInsertFails faultySession world0).2.2) = false ∧
    refused envSessionInsertFails world0.trace
      (world0.since (Session.Save envSessionInsertFails faultySession world0).2.2) = true := by
  refine ⟨by decide, by decide, by decide, by decide, by decide, by decide, by decide, by decide⟩

end FitnessScheduler
